import Mathlib

/-!
Shallow embedding of the Masjid-Receipts reporting and receipt-listing engine
(`app/api/endpoints/reports.py`, `app/api/endpoints/receipts.py`, and the data
model of `app/models/*.py`), together with proofs about the embedded code.

Modelling conventions:
* Monetary amounts (Python `float` / SQL `Float`) are embedded as exact
  rationals `ℚ`; Python's presentation-boundary `round(x, n)` is embedded as
  `round2`/`round1` below (scale, round to the nearest integer, unscale).
* A SQLAlchemy query over the receipts table is a pure function over the list
  `DB.receipts`; `.filter` is `List.filter` (storage order is list order),
  `.first()` is `List.head?`, `.all()` is the list itself.
* A SQL `GROUP BY k` query is `sqlGroupBy` below: one row per distinct key.
  SQLite executes these un-indexed GROUP BY queries with a sorter, emitting the
  groups in ascending key order; `sqlGroupBy` reproduces that order.  Text
  columns compare byte-wise (SQLite BINARY collation), embedded as the
  character-code lexicographic order `strLtB`.
* Python's stable sorts (`sorted(..., key=..., reverse=True)`, `.sort(key=...)`
  and SQL `ORDER BY`) are embedded as the stable insertion sort `pySort`.
* A Python function that can raise `HTTPException` / `ZeroDivisionError` is
  embedded in `Except String`.
-/

/-! ## String utilities (structural, hence kernel-evaluable) -/

/-- Is the character list `n` a prefix of `h` (by character codes)? -/
def prefB : List Char → List Char → Bool
  | [], _ => true
  | _ :: _, [] => false
  | a :: as, b :: bs => (a.toNat == b.toNat) && prefB as bs

/-- Does `h` contain `n` as a contiguous run?  Embeds SQL `ilike '%n%'` once
both sides are lower-cased. -/
def subB (n : List Char) : List Char → Bool
  | [] => prefB n []
  | b :: bs => prefB n (b :: bs) || subB n bs

/-- Python `s.lower()` (ASCII case folding, as SQLite `ilike` also folds ASCII). -/
def lowerOf (cs : List Char) : List Char := cs.map Char.toLower

/-- Python `s.upper()`. -/
def upperOf (cs : List Char) : List Char := cs.map Char.toUpper

/-- Python `s.strip()`: drop whitespace on both ends. -/
def pyStrip (s : String) : List Char :=
  ((s.data.dropWhile Char.isWhitespace).reverse.dropWhile Char.isWhitespace).reverse

/-- Case-insensitive containment: embeds `column.ilike(f"%{pat}%")`. -/
def ilikeSub (hay pat : String) : Bool := subB (lowerOf pat.data) (lowerOf hay.data)

/-- Strict lexicographic order on character lists by character code. -/
def listLtB : List Char → List Char → Bool
  | _, [] => false
  | [], _ :: _ => true
  | a :: as, b :: bs =>
    a.toNat < b.toNat || (a.toNat == b.toNat && listLtB as bs)

/-- Byte-wise lexicographic strict order on strings: the "natural ascending
order" of text keys (SQLite BINARY collation). -/
def strLtB (a b : String) : Bool := listLtB a.data b.data

/-- Non-strict companion of `strLtB`. -/
def strLeB (a b : String) : Bool := !(strLtB b a)

/-! ## Rounding at presentation boundaries -/

/-- Embeds Python `round(q, 2)`: round to the nearest multiple of `1/100`. -/
def round2 (q : ℚ) : ℚ := ((round (q * 100) : ℤ) : ℚ) / 100

/-- Embeds Python `round(q, 1)`: round to the nearest multiple of `1/10`. -/
def round1 (q : ℚ) : ℚ := ((round (q * 10) : ℤ) : ℚ) / 10

/-- `q` is a whole number of cents (two decimal places suffice). -/
def IsCents (q : ℚ) : Prop := ∃ z : ℤ, q * 100 = (z : ℚ)

/-! ## Data model (`app/models/receipt.py`, `app/models/user.py`,
`app/models/tag.py`) -/

/-- `class PaymentMode(str, enum.Enum)` — the closed payment-mode enumeration. -/
inductive PaymentMode
  | CASH
  | CARD
  | BANK_TRANSFER
  | CHEQUE
  | OTHER
deriving DecidableEq, Fintype

/-- The `.value` of each `PaymentMode` member. -/
def PaymentMode.value : PaymentMode → String
  | .CASH => "cash"
  | .CARD => "card"
  | .BANK_TRANSFER => "bank_transfer"
  | .CHEQUE => "cheque"
  | .OTHER => "other"

/-- The Python `.name` of each `PaymentMode` member. -/
def PaymentMode.pyName : PaymentMode → String
  | .CASH => "CASH"
  | .CARD => "CARD"
  | .BANK_TRANSFER => "BANK_TRANSFER"
  | .CHEQUE => "CHEQUE"
  | .OTHER => "OTHER"

/-- Iteration order of `for mode in PaymentMode` (class-body order). -/
def PaymentMode.members : List PaymentMode :=
  [.CASH, .CARD, .BANK_TRANSFER, .CHEQUE, .OTHER]

/-- `class UserRole(str, enum.Enum)` — the closed role enumeration. -/
inductive UserRole
  | IMAM
  | FINANCE_SECRETARY
  | AUDITOR
deriving DecidableEq

/-- The `.value` of each `UserRole` member. -/
def UserRole.value : UserRole → String
  | .IMAM => "imam"
  | .FINANCE_SECRETARY => "finance_secretary"
  | .AUDITOR => "auditor"

/-- Iteration order of `for role in UserRole`. -/
def UserRole.members : List UserRole := [.IMAM, .FINANCE_SECRETARY, .AUDITOR]

/-- A row of the `tags` table. -/
structure Tag where
  id : ℕ
  name : String
deriving DecidableEq

/-- The date part of a `DateTime` column that the engine inspects
(`extract('month', ...)`, `extract('year', ...)` and date-bound comparisons). -/
structure RDate where
  year : ℕ
  month : ℕ
  day : ℕ
deriving DecidableEq

/-- Chronological key of a date, used for the inclusive date-bound filters. -/
def RDate.key (d : RDate) : ℕ := d.year * 10000 + d.month * 100 + d.day

/-- A row of the `receipts` table.  `tags` holds the tag ids linked through the
`receipt_tags` association table, so `Receipt.tags.contains(tag)` is
`tag.id ∈ r.tags`. -/
structure Receipt where
  id : ℕ
  amount : ℚ
  category : String
  payment_mode : PaymentMode
  note : Option String := none
  image_path : Option String := none
  store_name : Option String := none
  receipt_date : RDate
  created_at : ℕ := 0
  uploaded_by : ℕ
  tags : List ℕ := []
deriving DecidableEq

/-- A row of the `users` table (the fields the reporting engine reads). -/
structure User where
  id : ℕ
  username : String := ""
  full_name : String := ""
  role : UserRole
deriving DecidableEq

/-- A snapshot of the persistent store visible to one report computation. -/
structure DB where
  receipts : List Receipt
  tags : List Tag := []
  users : List User := []

/-- Structural equality of embedded endpoint results is decidable. -/
instance {eps alpha : Type} [DecidableEq eps] [DecidableEq alpha] :
    DecidableEq (Except eps alpha) := fun a b =>
  match a, b with
  | .error e1, .error e2 =>
    if h : e1 = e2 then isTrue (by rw [h])
    else isFalse fun he => h (by cases he; rfl)
  | .error _, .ok _ => isFalse fun he => Except.noConfusion he
  | .ok _, .error _ => isFalse fun he => Except.noConfusion he
  | .ok a1, .ok a2 =>
    if h : a1 = a2 then isTrue (by rw [h])
    else isFalse fun he => h (by cases he; rfl)

/-! ## Python truthiness of optional query parameters

FastAPI hands the endpoints `Optional[int]` / `Optional[str]` values, and the
code guards filters with `if month:`, `if tag_name:` etc., so `None`, `0` and
`""` all disable a filter. -/

/-- Truthiness of an `Optional[int]`. -/
def truthyNat (o : Option ℕ) : Bool := o.getD 0 != 0

/-- Truthiness of an `Optional[str]`. -/
def truthyStr (o : Option String) : Bool := !(o.getD "" == "")

/-! ## `_parse_payment_mode` (`app/api/endpoints/receipts.py`, lines 20-32) -/

/-- The comma-joined accepted values, as interpolated into the error detail:
`', '.join([m.value for m in PaymentMode])`. -/
def paymentModeValuesJoined : String :=
  String.intercalate ", " (PaymentMode.members.map PaymentMode.value)

/-- The matching loop body: `s.lower() == mode.value.lower() or
s.upper() == mode.name`, over the members in class-body order, first hit wins. -/
def findPaymentMode (s : List Char) : Option PaymentMode :=
  PaymentMode.members.find? fun m =>
    lowerOf s == lowerOf m.value.data || upperOf s == m.pyName.data

/-- The `HTTPException(400, ...)` detail raised for an unparseable mode. -/
def paymentModeErr (pm_str : String) : String :=
  s!"Invalid payment_mode: {pm_str}. Expected one of: {paymentModeValuesJoined}"

/-- `_parse_payment_mode`: `None` passes through; otherwise the stripped string
must match some member by case-folded value or upper-cased name, else the
request fails with a 400 error naming the accepted values. -/
def parse_payment_mode (pm_str : Option String) : Except String (Option PaymentMode) :=
  match pm_str with
  | none => .ok none
  | some str0 =>
    match findPaymentMode (pyStrip str0) with
    | some m => .ok (some m)
    | none => .error (paymentModeErr str0)

/-- The spec's description of payment-mode normalization, for comparison with
the code: "an input string normalized (case-folded, separators flattened)"
(§4.6 of the spec); space and hyphen separators flatten to the enumeration's
underscore. -/
def specNormalizedPaymentMode (s : String) : List Char :=
  (lowerOf (pyStrip s)).map fun c => if c = ' ' ∨ c = '-' then '_' else c

/-! ## Facts about the character-code order -/

theorem charToNat_inj {a b : Char} (h : a.toNat = b.toNat) : a = b := by
  cases a with
  | mk va ha =>
    cases b with
    | mk vb hb =>
      have : va = vb := UInt32.toNat.inj h
      subst this
      rfl

@[simp] theorem listLtB_nil_right (l : List Char) : listLtB l [] = false := by
  cases l <;> rfl

@[simp] theorem listLtB_nil_left (b : Char) (bs : List Char) :
    listLtB [] (b :: bs) = true := rfl

@[simp] theorem listLtB_cons_cons (a b : Char) (as bs : List Char) :
    listLtB (a :: as) (b :: bs)
      = (a.toNat < b.toNat || (a.toNat == b.toNat && listLtB as bs)) := rfl

theorem listLtB_irrefl : ∀ l : List Char, listLtB l l = false
  | [] => rfl
  | x :: xs => by simp [listLtB_irrefl xs]

theorem listLtB_trans :
    ∀ (a b c : List Char), listLtB a b = true → listLtB b c = true → listLtB a c = true
  | _, [], _, h1, _ => by simp at h1
  | _, _ :: _, [], _, h2 => by simp at h2
  | [], _ :: _, _ :: _, _, _ => by simp
  | x :: xs, y :: ys, z :: zs, h1, h2 => by
    simp only [listLtB_cons_cons, Bool.or_eq_true, Bool.and_eq_true,
      decide_eq_true_eq, beq_iff_eq] at h1 h2 ⊢
    rcases h1 with h1 | ⟨e1, r1⟩ <;> rcases h2 with h2 | ⟨e2, r2⟩
    · exact Or.inl (by omega)
    · exact Or.inl (by omega)
    · exact Or.inl (by omega)
    · exact Or.inr ⟨by omega, listLtB_trans xs ys zs r1 r2⟩

theorem listLtB_asymm (a b : List Char) (h : listLtB a b = true) :
    listLtB b a = false := by
  cases hba : listLtB b a with
  | false => rfl
  | true =>
    have := listLtB_trans a b a h hba
    rw [listLtB_irrefl] at this
    exact absurd this (by simp)

theorem listLtB_total :
    ∀ (a b : List Char), a ≠ b → listLtB a b = true ∨ listLtB b a = true
  | [], [], h => absurd rfl h
  | [], _ :: _, _ => Or.inl (by simp)
  | _ :: _, [], _ => Or.inr (by simp)
  | x :: xs, y :: ys, h => by
    rcases Nat.lt_trichotomy x.toNat y.toNat with hlt | heq | hgt
    · exact Or.inl (by simp [hlt])
    · have hxy : x = y := charToNat_inj heq
      subst hxy
      have hne : xs ≠ ys := fun e => h (by rw [e])
      rcases listLtB_total xs ys hne with h1 | h1
      · exact Or.inl (by simp [h1])
      · exact Or.inr (by simp [h1])
    · exact Or.inr (by simp [hgt])

theorem strLtB_trans {a b c : String} (h1 : strLtB a b = true) (h2 : strLtB b c = true) :
    strLtB a c = true := listLtB_trans a.data b.data c.data h1 h2

theorem strLtB_total {a b : String} (h : a ≠ b) :
    strLtB a b = true ∨ strLtB b a = true := by
  refine listLtB_total a.data b.data fun e => h ?_
  cases a; cases b; cases e; rfl

theorem strLeB_of_not_ltB {a b : String} (h : strLtB b a = false) : strLeB a b = true := by
  simp [strLeB, h]

theorem strLtB_of_not_leB {a b : String} (h : ¬ strLeB a b = true) : strLtB b a = true := by
  simp [strLeB] at h
  exact h

/-! ## `pySort`: Python's stable sort (and SQL `ORDER BY`)

`le a b = true` means "`a` may stay in front of `b`"; ties therefore keep
their original relative order, exactly as Python's `sorted` and `list.sort`
guarantee. -/

/-- Insert `a` in front of the first element it may precede strictly; among
equals the incoming (originally earlier) element goes first. -/
def insBefore (le : α → α → Bool) (a : α) : List α → List α
  | [] => [a]
  | b :: l => if le a b then a :: b :: l else b :: insBefore le a l

/-- Stable sort by `le`. -/
def pySort (le : α → α → Bool) (l : List α) : List α := l.foldr (insBefore le) []

theorem mem_insBefore (le : α → α → Bool) (a x : α) :
    ∀ l : List α, x ∈ insBefore le a l ↔ x = a ∨ x ∈ l
  | [] => by simp [insBefore]
  | b :: l => by
    simp only [insBefore]
    split
    · simp [or_comm, or_left_comm]
    · simp only [List.mem_cons, mem_insBefore le a x l]
      tauto

theorem insBefore_perm (le : α → α → Bool) (a : α) :
    ∀ l : List α, List.Perm (insBefore le a l) (a :: l)
  | [] => List.Perm.refl _
  | b :: l => by
    simp only [insBefore]
    split
    · exact List.Perm.refl _
    · exact (List.Perm.cons b (insBefore_perm le a l)).trans (List.Perm.swap a b l)

theorem pySort_perm (le : α → α → Bool) :
    ∀ l : List α, List.Perm (pySort le l) l
  | [] => List.Perm.refl _
  | a :: l =>
    (insBefore_perm le a (pySort le l)).trans (List.Perm.cons a (pySort_perm le l))

theorem pairwise_insBefore {α : Type} {R : α → α → Prop} {le : α → α → Bool} {a : α}
    (htr : ∀ x y z, le x y = true → R y z → le x z = true) :
    ∀ {s : List α}, s.Pairwise R →
      (∀ x ∈ s, (le a x = true → R a x) ∧ (le a x = false → R x a)) →
      (insBefore le a s).Pairwise R
  | [], _, _ => by simp [insBefore]
  | b :: t, hs, ha => by
    rw [List.pairwise_cons] at hs
    obtain ⟨hbt, ht⟩ := hs
    by_cases hle : le a b = true
    · rw [insBefore, if_pos hle]
      refine List.Pairwise.cons ?_ (List.Pairwise.cons hbt ht)
      intro x hx
      rcases List.mem_cons.mp hx with rfl | hxt
      · exact (ha x (by simp)).1 hle
      · exact (ha x (by simp [hxt])).1 (htr a b x hle (hbt x hxt))
    · have hle' : le a b = false := by revert hle; cases le a b <;> simp
      rw [insBefore, if_neg hle]
      refine List.Pairwise.cons ?_
        (pairwise_insBefore htr ht fun x hx => ha x (by simp [hx]))
      intro x hx
      rcases (mem_insBefore le a x t).mp hx with hxa | hxt
      · subst hxa; exact (ha b (by simp)).2 hle'
      · exact hbt x hxt

/-- Stability of `pySort`: if the input is `Q`-pairwise and `Q` decides every
tie in favour of the target relation `R`, the output is `R`-pairwise. -/
theorem pairwise_pySort {α : Type} {R Q : α → α → Prop} {le : α → α → Bool}
    (htr : ∀ x y z, le x y = true → R y z → le x z = true)
    (hQ : ∀ a b, Q a b → (le a b = true → R a b) ∧ (le a b = false → R b a)) :
    ∀ {l : List α}, l.Pairwise Q → (pySort le l).Pairwise R
  | [], _ => by simp [pySort]
  | a :: l, hl => by
    rw [List.pairwise_cons] at hl
    refine pairwise_insBefore htr (pairwise_pySort htr hQ hl.2) ?_
    intro x hx
    exact hQ a x (hl.1 x ((pySort_perm le l).subset hx))

theorem pySort_map_sum {α M : Type} [AddCommMonoid M] (le : α → α → Bool)
    (f : α → M) (l : List α) :
    ((pySort le l).map f).sum = (l.map f).sum :=
  ((pySort_perm le l).map f).sum_eq

theorem pySort_length {α : Type} (le : α → α → Bool) (l : List α) :
    (pySort le l).length = l.length :=
  (pySort_perm le l).length_eq

/-! ## `sqlGroupBy`: the SQL `GROUP BY` aggregate queries

Each breakdown query in `reports.py` has the shape
`db.query(key, func.sum(Receipt.amount), func.count(Receipt.id)).group_by(key)`:
one row per distinct key carrying the group's amount sum and row count.
SQLite evaluates these GROUP BY queries with a sorter, so the rows come out in
ascending key order; `leK` is that order (`strLeB` for text keys, `≤` for the
numeric month key). -/

/-- The distinct elements of a list (the distinct grouping keys). -/
def distinctKeys {K : Type} [DecidableEq K] : List K → List K
  | [] => []
  | a :: l => if a ∈ distinctKeys l then distinctKeys l else a :: distinctKeys l

theorem mem_distinctKeys {K : Type} [DecidableEq K] (x : K) :
    ∀ l : List K, x ∈ distinctKeys l ↔ x ∈ l
  | [] => Iff.rfl
  | a :: l => by
    simp only [distinctKeys]
    split
    · rw [mem_distinctKeys x l, List.mem_cons]
      rename_i h
      constructor
      · exact Or.inr
      · rintro (rfl | hx)
        · exact (mem_distinctKeys x l).mp h
        · exact hx
    · rw [List.mem_cons, List.mem_cons, mem_distinctKeys x l]

theorem nodup_distinctKeys {K : Type} [DecidableEq K] :
    ∀ l : List K, (distinctKeys l).Nodup
  | [] => List.nodup_nil
  | a :: l => by
    simp only [distinctKeys]
    split
    · exact nodup_distinctKeys l
    · exact List.Nodup.cons (by assumption) (nodup_distinctKeys l)

def sqlGroupBy {K : Type} [DecidableEq K] (leK : K → K → Bool)
    (key : Receipt → K) (recs : List Receipt) : List (K × ℚ × ℕ) :=
  (pySort leK (distinctKeys (recs.map key))).map fun k =>
    (k, ((recs.filter fun r => decide (key r = k)).map Receipt.amount).sum,
        (recs.filter fun r => decide (key r = k)).length)

theorem sum_filter_split {α M : Type} [AddCommMonoid M] (p : α → Bool) (f : α → M) :
    ∀ l : List α,
      ((l.filter p).map f).sum + ((l.filter fun a => !(p a)).map f).sum = (l.map f).sum
  | [] => by simp
  | a :: l => by
    cases h : p a with
    | true =>
      simp [List.filter_cons, h]
      rw [add_assoc, sum_filter_split p f l]
    | false =>
      simp [List.filter_cons, h]
      rw [add_left_comm, sum_filter_split p f l]

theorem sum_groups {α K M : Type} [DecidableEq K] [AddCommMonoid M]
    (key : α → K) (f : α → M) :
    ∀ (ks : List K) (l : List α), ks.Nodup → (∀ x ∈ l, key x ∈ ks) →
      (ks.map fun k => ((l.filter fun x => decide (key x = k)).map f).sum).sum
        = (l.map f).sum
  | [], l, _, hcov => by
    cases l with
    | nil => simp
    | cons a t => exact absurd (hcov a (by simp)) (by simp)
  | k :: ks, l, hnd, hcov => by
    rw [List.map_cons, List.sum_cons]
    rw [List.nodup_cons] at hnd
    have hcongr : ∀ k2 ∈ ks, (l.filter fun x => decide (key x = k2))
        = ((l.filter fun x => !(decide (key x = k))).filter fun x => decide (key x = k2)) := by
      intro k2 hk2
      rw [List.filter_filter]
      refine (List.filter_congr ?_)
      intro x _
      cases he : decide (key x = k2) with
      | false => simp
      | true =>
        have he' : key x = k2 := of_decide_eq_true he
        have hxk : ¬ key x = k := by
          intro e
          exact hnd.1 (by rwa [← e.symm.trans he'] at hk2)
        simp [hxk]
    have htail : (ks.map fun k2 => ((l.filter fun x => decide (key x = k2)).map f).sum)
        = (ks.map fun k2 =>
            (((l.filter fun x => !(decide (key x = k))).filter
                fun x => decide (key x = k2)).map f).sum) := by
      refine List.map_congr_left ?_
      intro k2 hk2
      rw [hcongr k2 hk2]
    rw [htail, sum_groups key f ks (l.filter fun x => !(decide (key x = k))) hnd.2 ?_,
      sum_filter_split (fun x => decide (key x = k)) f l]
    intro x hx
    rw [List.mem_filter] at hx
    have hk2 := hcov x hx.1
    rcases List.mem_cons.mp hk2 with he | hm
    · exact absurd (decide_eq_true he) (by simpa using hx.2)
    · exact hm

theorem map_one_sum {α : Type} : ∀ l : List α, (l.map fun _ => (1 : ℕ)).sum = l.length
  | [] => rfl
  | a :: l => by simp [map_one_sum l]; omega

/-- The distinct sorted key list underlying `sqlGroupBy` is duplicate-free and
covers every record's key. -/
theorem sortedKeys_nodup_cov {K : Type} [DecidableEq K] (leK : K → K → Bool)
    (key : Receipt → K) (recs : List Receipt) :
    (pySort leK (distinctKeys (recs.map key))).Nodup
      ∧ ∀ r ∈ recs, key r ∈ pySort leK (distinctKeys (recs.map key)) := by
  constructor
  · exact ((pySort_perm leK (distinctKeys (recs.map key))).nodup_iff).mpr
      (nodup_distinctKeys _)
  · intro r hr
    exact ((pySort_perm leK (distinctKeys (recs.map key))).mem_iff).mpr
      ((mem_distinctKeys _ _).mpr (List.mem_map_of_mem key hr))

/-- Reconciliation, totals: the group totals of a `GROUP BY` query sum to the
flat amount sum of the underlying record list. -/
theorem sqlGroupBy_sum_totals {K : Type} [DecidableEq K] (leK : K → K → Bool)
    (key : Receipt → K) (recs : List Receipt) :
    ((sqlGroupBy leK key recs).map fun g => g.2.1).sum
      = (recs.map Receipt.amount).sum := by
  obtain ⟨hnd, hcov⟩ := sortedKeys_nodup_cov leK key recs
  unfold sqlGroupBy
  rw [List.map_map]
  exact sum_groups key Receipt.amount _ recs hnd hcov

/-- Reconciliation, counts: the group counts of a `GROUP BY` query sum to the
length of the underlying record list. -/
theorem sqlGroupBy_sum_counts {K : Type} [DecidableEq K] (leK : K → K → Bool)
    (key : Receipt → K) (recs : List Receipt) :
    ((sqlGroupBy leK key recs).map fun g => g.2.2).sum = recs.length := by
  obtain ⟨hnd, hcov⟩ := sortedKeys_nodup_cov leK key recs
  unfold sqlGroupBy
  rw [List.map_map]
  have : ∀ ks : List K, (ks.map fun k =>
        ((recs.filter fun r => decide (key r = k)).map fun _ => (1 : ℕ)).sum).sum
      = (ks.map ((fun g : K × ℚ × ℕ => g.2.2) ∘ fun k =>
        (k, ((recs.filter fun r => decide (key r = k)).map Receipt.amount).sum,
            (recs.filter fun r => decide (key r = k)).length))).sum := by
    intro ks
    congr 1
    refine List.map_congr_left ?_
    intro k _
    simp [map_one_sum]
  rw [← this]
  rw [sum_groups key (fun _ => (1 : ℕ)) _ recs hnd hcov]
  exact map_one_sum recs

/-- Every group row of a `GROUP BY` query records its key's filter aggregate. -/
theorem sqlGroupBy_row {K : Type} [DecidableEq K] (leK : K → K → Bool)
    (key : Receipt → K) (recs : List Receipt) {g : K × ℚ × ℕ}
    (hg : g ∈ sqlGroupBy leK key recs) :
    g.2.1 = ((recs.filter fun r => decide (key r = g.1)).map Receipt.amount).sum
      ∧ g.2.2 = (recs.filter fun r => decide (key r = g.1)).length := by
  unfold sqlGroupBy at hg
  rw [List.mem_map] at hg
  obtain ⟨k, _, rfl⟩ := hg
  exact ⟨rfl, rfl⟩

/-- The keys present among the group rows are exactly the keys of the records. -/
theorem sqlGroupBy_keys_iff {K : Type} [DecidableEq K] (leK : K → K → Bool)
    (key : Receipt → K) (recs : List Receipt) (k : K) :
    (∃ g ∈ sqlGroupBy leK key recs, g.1 = k) ↔ ∃ r ∈ recs, key r = k := by
  unfold sqlGroupBy
  constructor
  · rintro ⟨g, hg, rfl⟩
    rw [List.mem_map] at hg
    obtain ⟨k2, hk2, rfl⟩ := hg
    have := ((pySort_perm leK (distinctKeys (recs.map key))).mem_iff).mp hk2
    rw [mem_distinctKeys, List.mem_map] at this
    obtain ⟨r, hr, rfl⟩ := this
    exact ⟨r, hr, rfl⟩
  · rintro ⟨r, hr, rfl⟩
    refine ⟨(key r, ((recs.filter fun x => decide (key x = key r)).map Receipt.amount).sum,
      (recs.filter fun x => decide (key x = key r)).length), ?_, rfl⟩
    rw [List.mem_map]
    exact ⟨key r, ((pySort_perm leK (distinctKeys (recs.map key))).mem_iff).mpr
      ((mem_distinctKeys _ _).mpr (List.mem_map_of_mem key hr)), rfl⟩

/-- The group keys of a `GROUP BY` query come out strictly ascending (here for
text keys in the byte-wise order). -/
theorem sqlGroupBy_pairwise_str (key : Receipt → String) (recs : List Receipt) :
    (sqlGroupBy strLeB key recs).Pairwise fun g1 g2 => strLtB g1.1 g2.1 = true := by
  unfold sqlGroupBy
  refine List.Pairwise.map _ (fun a b h => h) ?_
  refine @pairwise_pySort _ (fun a b => strLtB a b = true) (fun a b => a ≠ b) strLeB
    ?_ ?_ _ (nodup_distinctKeys _)
  · intro x y z hxy hyz
    refine strLeB_of_not_ltB ?_
    cases hzx : strLtB z x with
    | false => rfl
    | true =>
      have := strLtB_trans hyz hzx
      rw [strLeB] at hxy
      rw [this] at hxy
      exact absurd hxy (by simp)
  · intro a b hab
    constructor
    · intro hle
      rcases strLtB_total hab with h | h
      · exact h
      · rw [strLeB, h] at hle
        exact absurd hle (by simp)
    · intro hle
      exact strLtB_of_not_leB (by simp [hle])

/-- The group keys of a `GROUP BY` query come out strictly ascending (numeric
month key). -/
theorem sqlGroupBy_pairwise_nat (key : Receipt → ℕ) (recs : List Receipt) :
    (sqlGroupBy (fun a b => decide (a ≤ b)) key recs).Pairwise
      fun g1 g2 => g1.1 < g2.1 := by
  unfold sqlGroupBy
  refine List.Pairwise.map _ (fun a b h => h) ?_
  refine @pairwise_pySort _ (fun a b : ℕ => a < b) (fun a b : ℕ => a ≠ b)
    (fun a b => decide (a ≤ b)) ?_ ?_ _ (nodup_distinctKeys _)
  · intro x y z hxy hyz
    have hxy' := of_decide_eq_true hxy
    exact decide_eq_true (by omega)
  · intro a b hab
    constructor
    · intro hle
      have := of_decide_eq_true hle
      omega
    · intro hle
      have : ¬ a ≤ b := of_decide_eq_false hle
      omega

/-! ## Conditional query filters

Every optional criterion in the source has one of two shapes: `if cond:
query = query.filter(p)` (a filter applied when the parameter is truthy) and
`if obj is not None: query = query.filter(p(obj))` (a filter applied when an
optional object is present).  `condFilter` and `optFilter` embed these two
shapes. -/

/-- `if c: query = query.filter(p)`. -/
def condFilter {α : Type} (c : Bool) (p : α → Bool) (l : List α) : List α :=
  if c then l.filter p else l

/-- Apply a filter parameterized by an optional object, when present. -/
def optFilter {α β : Type} (o : Option β) (pf : β → α → Bool) (l : List α) : List α :=
  match o with
  | some v => l.filter (pf v)
  | none => l

theorem condFilter_sublist {α : Type} (c : Bool) (p : α → Bool) (l : List α) :
    (condFilter c p l).Sublist l := by
  unfold condFilter
  split
  · exact List.filter_sublist l
  · exact List.Sublist.refl l

theorem optFilter_sublist {α β : Type} (o : Option β) (pf : β → α → Bool)
    (l : List α) : (optFilter o pf l).Sublist l := by
  cases o with
  | none => exact List.Sublist.refl l
  | some v => exact List.filter_sublist l

theorem mem_condFilter {α : Type} {c : Bool} {p : α → Bool} {l : List α} {r : α}
    (h : r ∈ condFilter c p l) : r ∈ l :=
  (condFilter_sublist c p l).subset h

theorem mem_optFilter {α β : Type} {o : Option β} {pf : β → α → Bool}
    {l : List α} {r : α} (h : r ∈ optFilter o pf l) : r ∈ l :=
  (optFilter_sublist o pf l).subset h

theorem condFilter_false {α : Type} {c : Bool} (hc : c = false) (p : α → Bool)
    (l : List α) : condFilter c p l = l := by
  unfold condFilter
  rw [hc]
  simp

/-! ## Role-based visibility scoping (`receipts.py`, lines 152-154 and 201-203)

Both listing endpoints run the same two lines
`if current_user.role == UserRole.IMAM: query = query.filter(Receipt.uploaded_by == current_user.id)`
as the first restriction on the base query, before any filter. -/

def roleScope (current_user : User) (l : List Receipt) : List Receipt :=
  if current_user.role = UserRole.IMAM then
    l.filter fun r => decide (r.uploaded_by = current_user.id)
  else l

/-- `receipt.uploader.username` (FK join; assumes referential integrity). -/
def uploaderUsername (db : DB) (r : Receipt) : String :=
  ((db.users.find? fun u => decide (u.id = r.uploaded_by)).map User.username).getD ""

/-- `receipt.uploader.full_name` (FK join; assumes referential integrity). -/
def uploaderFullName (db : DB) (r : Receipt) : String :=
  ((db.users.find? fun u => decide (u.id = r.uploaded_by)).map User.full_name).getD ""

/-- The response decoration loop: each receipt dict is copied and extended with
`uploader_name`. -/
def withUploaderName (db : DB) (l : List Receipt) : List (Receipt × String) :=
  l.map fun r => (r, uploaderFullName db r)

/-! ## `GET /receipts/` — `get_receipts` (`receipts.py`, lines 130-175) -/

/-- Query parameters of `get_receipts` (FastAPI defaults included). -/
structure ListFilters where
  skip : ℕ := 0
  limit : ℕ := 100
  category : Option String := none
  payment_mode : Option String := none
  uploaded_by : Option ℕ := none

/-- The successive filters of `get_receipts`: role scoping first, then exact
category match, parsed payment mode match, uploader match. -/
def listFilterChain (db : DB) (current_user : User) (f : ListFilters)
    (pm : Option PaymentMode) : List Receipt :=
  let q := roleScope current_user db.receipts
  let q := condFilter (truthyStr f.category)
    (fun r => decide (r.category = f.category.getD "")) q
  let q := condFilter (truthyStr f.payment_mode)
    (fun r => decide (some r.payment_mode = pm)) q
  condFilter (truthyNat f.uploaded_by)
    (fun r => decide (r.uploaded_by = f.uploaded_by.getD 0)) q

/-- `get_receipts`: the filter chain, then `offset(skip).limit(limit)`, then
the uploader-name decoration.  The one fallible step, `_parse_payment_mode`,
is hoisted to the front; it is the only error source, so the result is
unchanged. -/
def get_receipts (db : DB) (current_user : User) (f : ListFilters) :
    Except String (List (Receipt × String)) :=
  match (if truthyStr f.payment_mode then parse_payment_mode f.payment_mode else .ok none) with
  | .error e => .error e
  | .ok pm =>
    .ok (withUploaderName db
      (((listFilterChain db current_user f pm).drop f.skip).take f.limit))

/-! ## `GET /receipts/search` — `search_receipts` (`receipts.py`, lines 178-251) -/

/-- Query parameters of `search_receipts`.  The date bounds are stored after
parsing: the code wraps `datetime.fromisoformat` in `try/except: pass`, so an
absent or malformed date string is `none` here (fail-open). -/
structure SearchFilters where
  store_name : Option String := none
  category : Option String := none
  tag_name : Option String := none
  min_amount : Option ℚ := none
  max_amount : Option ℚ := none
  start_date : Option RDate := none
  end_date : Option RDate := none
  payment_mode : Option String := none

/-- `db.query(Tag).filter(Tag.name.ilike(f"%{tag_name}%")).first()`:
the first stored tag whose name contains the pattern case-insensitively. -/
def resolveSearchTag (tags : List Tag) (pat : String) : Option Tag :=
  (tags.filter fun t => ilikeSub t.name pat).head?

/-- The tag-resolution step of the search (`if tag_name:` around the `ilike`
lookup): `none` both when the criterion is absent and when it resolves to no
tag; in either case no tag filter is applied. -/
def searchTag (db : DB) (f : SearchFilters) : Option Tag :=
  if truthyStr f.tag_name then resolveSearchTag db.tags (f.tag_name.getD "")
  else none

/-- The successive filters of `search_receipts`: role scoping first, then the
conjunctive search filters in source order. -/
def searchFilterChain (db : DB) (current_user : User) (f : SearchFilters)
    (pm : Option PaymentMode) : List Receipt :=
  let q := roleScope current_user db.receipts
  let q := condFilter (truthyStr f.store_name)
    (fun r =>
      match r.store_name with
      | some s => ilikeSub s (f.store_name.getD "")
      | none => false) q
  let q := condFilter (truthyStr f.category)
    (fun r => ilikeSub r.category (f.category.getD "")) q
  let q := optFilter (searchTag db f) (fun tag r => decide (tag.id ∈ r.tags)) q
  let q := optFilter f.min_amount (fun mn r => decide (mn ≤ r.amount)) q
  let q := optFilter f.max_amount (fun mx r => decide (r.amount ≤ mx)) q
  let q := optFilter f.start_date (fun d r => decide (d.key ≤ r.receipt_date.key)) q
  let q := optFilter f.end_date (fun d r => decide (r.receipt_date.key ≤ d.key)) q
  condFilter (truthyStr f.payment_mode)
    (fun r => decide (some r.payment_mode = pm)) q

/-- `search_receipts`: the parse step (the only error source, hoisted to the
front), the filter chain, and the uploader-name decoration. -/
def search_receipts (db : DB) (current_user : User) (f : SearchFilters) :
    Except String (List (Receipt × String)) :=
  match (if truthyStr f.payment_mode then parse_payment_mode f.payment_mode else .ok none) with
  | .error e => .error e
  | .ok pm => .ok (withUploaderName db (searchFilterChain db current_user f pm))

/-! ## `GET /reports/tally` — `get_tally` (`reports.py`, lines 21-111) -/

/-- Query parameters of `get_tally`. -/
structure TallyFilters where
  month : Option ℕ := none
  year : Option ℕ := none
  tag_id : Option ℕ := none
  tag_name : Option String := none

/-- The tag-resolution step of `get_tally` (lines 51-57): inside
`if tag_id or tag_name:`, look the tag up by id if `tag_id` is truthy, else by
exact name; `.first()` of the filtered tag table. -/
def tallyTag (db : DB) (f : TallyFilters) : Option Tag :=
  if truthyNat f.tag_id || truthyStr f.tag_name then
    if truthyNat f.tag_id then
      (db.tags.filter fun t => decide (t.id = f.tag_id.getD 0)).head?
    else
      (db.tags.filter fun t => decide (t.name = f.tag_name.getD "")).head?
  else none

/-- The matching receipt set of `get_tally` (lines 36-65): month filter, year
filter, then — only when the tag lookup succeeded (`if tag:`) — the tag
containment filter.  An unresolved tag applies no filter at all. -/
def tallyMatched (db : DB) (f : TallyFilters) : List Receipt :=
  let q := db.receipts
  let q := condFilter (truthyNat f.month)
    (fun r => decide (r.receipt_date.month = f.month.getD 0)) q
  let q := condFilter (truthyNat f.year)
    (fun r => decide (r.receipt_date.year = f.year.getD 0)) q
  optFilter (tallyTag db f) (fun tag r => decide (tag.id ∈ r.tags)) q

/-- One entry of the `filters_applied` echo dict. -/
inductive FilterEcho
  | month (n : ℕ)
  | year (n : ℕ)
  | tag_id (n : ℕ)
  | tag_name (s : String)
  | tag (s : String)
deriving DecidableEq

/-- The `filters_applied` echo, entries in source insertion order.  Note that
`tag_id`/`tag_name` are echoed even when the tag lookup fails; the `tag` entry
is added only on success. -/
def tallyEcho (db : DB) (f : TallyFilters) : List FilterEcho :=
  (if truthyNat f.month then [FilterEcho.month (f.month.getD 0)] else [])
    ++ (if truthyNat f.year then [FilterEcho.year (f.year.getD 0)] else [])
    ++ (if truthyNat f.tag_id || truthyStr f.tag_name then
          (if truthyNat f.tag_id then [FilterEcho.tag_id (f.tag_id.getD 0)]
           else [FilterEcho.tag_name (f.tag_name.getD "")])
            ++ (match tallyTag db f with
                | some t => [FilterEcho.tag t.name]
                | none => [])
        else [])

/-- One row of a category / payment-mode breakdown
(`{"category"|"payment_mode": key, "total": ..., "count": ...}`).  For the
payment-mode breakdown the key is `mode.value` (the column is non-nullable, so
the `if mode else "unknown"` fallback never fires). -/
structure GroupRow where
  key : String
  total : ℚ
  count : ℕ
deriving DecidableEq

/-- Repackage a `GROUP BY` result row. -/
def toGroupRow (g : String × ℚ × ℕ) : GroupRow := ⟨g.1, g.2.1, g.2.2⟩

/-- The comparison of `sorted(rows, key=lambda x: x['total'], reverse=True)`:
`a` may stay in front of `b` iff its total is not smaller (stable descending). -/
def rowLe (a b : GroupRow) : Bool := decide (b.total ≤ a.total)

/-- The id list of the second-pass aggregation filter
`[r.id for r in receipts] if receipts else [0]` (lines 76 and 93). -/
def tallyIds (db : DB) (f : TallyFilters) : List ℕ :=
  if (tallyMatched db f).isEmpty then [0] else (tallyMatched db f).map Receipt.id

/-- The record set the two breakdown aggregations run over:
all stored receipts whose id is in `tallyIds` (`Receipt.id.in_(...)`). -/
def tallyBase (db : DB) (f : TallyFilters) : List Receipt :=
  db.receipts.filter fun r => decide (r.id ∈ tallyIds db f)

/-- The response of `get_tally`. -/
structure TallyResult where
  total_amount : ℚ
  receipt_count : ℕ
  filters_applied : List FilterEcho
  by_category : List GroupRow
  by_payment_mode : List GroupRow
deriving DecidableEq

/-- `get_tally`: flat total and count over the matching receipts; the two
breakdowns are independent `GROUP BY` aggregations over the id-filtered base
set, sorted descending by total (Python stable sort). -/
def get_tally (db : DB) (f : TallyFilters) : TallyResult :=
  { total_amount := round2 (((tallyMatched db f).map Receipt.amount).sum)
    receipt_count := (tallyMatched db f).length
    filters_applied := tallyEcho db f
    by_category := pySort rowLe
      ((sqlGroupBy strLeB (fun r => r.category) (tallyBase db f)).map toGroupRow)
    by_payment_mode := pySort rowLe
      ((sqlGroupBy strLeB (fun r => r.payment_mode.value) (tallyBase db f)).map toGroupRow) }

/-! ## `GET /reports/monthly-breakdown` — `get_monthly_breakdown`
(`reports.py`, lines 139-191) -/

/-- The `month_names` list of the source. -/
def month_names : List String :=
  ["January", "February", "March", "April", "May", "June",
   "July", "August", "September", "October", "November", "December"]

/-- One entry of the `months` list. -/
structure MonthRow where
  month : ℕ
  month_name : String
  total : ℚ
  count : ℕ
deriving DecidableEq

/-- The comparison of `months.sort(key=lambda x: x['month'])`. -/
def monthLe (a b : MonthRow) : Bool := decide (a.month ≤ b.month)

/-- The response of `get_monthly_breakdown`. -/
structure MonthlyResult where
  year : ℕ
  total_amount : ℚ
  months : List MonthRow
deriving DecidableEq

/-- `get_monthly_breakdown`: group the year's receipts by month, round each
month total for display, accumulate the unrounded totals into the grand total,
and sort the rows by month number. -/
def get_monthly_breakdown (db : DB) (year : ℕ) : MonthlyResult :=
  let monthly_data := sqlGroupBy (fun a b => decide (a ≤ b))
    (fun r => r.receipt_date.month)
    (db.receipts.filter fun r => decide (r.receipt_date.year = year))
  { year := year
    total_amount := round2 ((monthly_data.map fun g => g.2.1).sum)
    months := pySort monthLe (monthly_data.map fun g =>
      MonthRow.mk g.1 (month_names.getD (g.1 - 1) "") (round2 g.2.1) g.2.2) }

/-! ## `GET /reports/summary` — `get_summary` (`reports.py`, lines 194-261) -/

/-- One entry of the `recent_receipts` list. -/
structure RecentRow where
  id : ℕ
  amount : ℚ
  category : String
  uploader : String
  created_at : ℕ
deriving DecidableEq

/-- The comparison of `order_by(Receipt.created_at.desc())`. -/
def createdDescLe (a b : Receipt) : Bool := decide (b.created_at ≤ a.created_at)

/-- The response of `get_summary`. -/
structure SummaryResult where
  total_receipts : ℕ
  total_amount : ℚ
  average_receipt : ℚ
  top_categories : List GroupRow
  receipts_by_role : List (String × ℕ)
  recent_receipts : List RecentRow
deriving DecidableEq

/-- `get_summary`: grand stats with a guarded average, top-5 categories by
total (`ORDER BY sum DESC LIMIT 5`), per-role receipt counts (only roles with
at least one receipt), and the five most recently created receipts. -/
def get_summary (db : DB) : SummaryResult :=
  let total_receipts := db.receipts.length
  let total_amount := (db.receipts.map Receipt.amount).sum
  let average := if total_receipts > 0 then total_amount / (total_receipts : ℚ) else 0
  { total_receipts := total_receipts
    total_amount := round2 total_amount
    average_receipt := round2 average
    top_categories := (pySort rowLe
      ((sqlGroupBy strLeB (fun r => r.category) db.receipts).map toGroupRow)).take 5
    receipts_by_role := UserRole.members.filterMap fun ρ =>
      let c := (db.receipts.filter fun r =>
        db.users.any fun u => decide (u.id = r.uploaded_by) && decide (u.role = ρ)).length
      if c > 0 then some (ρ.value, c) else none
    recent_receipts := ((pySort createdDescLe db.receipts).take 5).map fun r =>
      RecentRow.mk r.id r.amount r.category (uploaderUsername db r) r.created_at }

/-! ## `GET /reports/dashboard/charts` — `get_chart_data`
(`reports.py`, lines 442-554) -/

/-- The matching receipt set of the chart endpoint (month/year filters only). -/
def chartMatched (db : DB) (m y : Option ℕ) : List Receipt :=
  let q := db.receipts
  let q := condFilter (truthyNat m)
    (fun r => decide (r.receipt_date.month = m.getD 0)) q
  condFilter (truthyNat y) (fun r => decide (r.receipt_date.year = y.getD 0)) q

/-- The grand total `sum(r.amount for r in receipts)` of the chart endpoint. -/
def chartTotal (db : DB) (m y : Option ℕ) : ℚ :=
  ((chartMatched db m y).map Receipt.amount).sum

/-- The id-filtered base set of the chart's aggregation queries
(`Receipt.id.in_([r.id for r in receipts])`; no `[0]` fallback here — this
code runs only when `receipts` is non-empty). -/
def chartBase (db : DB) (m y : Option ℕ) : List Receipt :=
  db.receipts.filter fun r => decide (r.id ∈ (chartMatched db m y).map Receipt.id)

/-- `category_data`: the category `GROUP BY` of the chart endpoint. -/
def chartCatGroups (db : DB) (m y : Option ℕ) : List (String × ℚ × ℕ) :=
  sqlGroupBy strLeB (fun r => r.category) (chartBase db m y)

/-- `payment_data`: the payment-mode `GROUP BY` of the chart endpoint. -/
def chartPayGroups (db : DB) (m y : Option ℕ) : List (String × ℚ × ℕ) :=
  sqlGroupBy strLeB (fun r => r.payment_mode.value) (chartBase db m y)

/-- `category_colors` (line 485): note the palette itself repeats `#FF6384`. -/
def categoryColors : List String :=
  ["#FF6384", "#36A2EB", "#FFCE56", "#4BC0C0", "#FF9F40", "#9966FF", "#FF6384"]

/-- `payment_colors` (line 496). -/
def paymentColors : List String :=
  ["#4BC0C0", "#FF9F40", "#9966FF", "#FF6384", "#36A2EB"]

/-- The abbreviated month names of the monthly trend (line 534). -/
def month_names_short : List String :=
  ["Jan", "Feb", "Mar", "Apr", "May", "Jun",
   "Jul", "Aug", "Sep", "Oct", "Nov", "Dec"]

/-- One pie-chart block (`labels` / `data` / `colors`). -/
structure PieChart where
  labels : List String
  data : List ℚ
  colors : List String
deriving DecidableEq

/-- One `top_categories` entry of the chart endpoint. -/
structure TopCatRow where
  category : String
  amount : ℚ
  percentage : ℚ
deriving DecidableEq

/-- The comparison of `sorted(..., key=lambda x: x['amount'], reverse=True)`. -/
def topLe (a b : TopCatRow) : Bool := decide (b.amount ≤ a.amount)

/-- The `stats` block of the chart endpoint. -/
structure ChartStats where
  total_amount : ℚ
  receipt_count : ℕ
  average_receipt : ℚ
  largest_expense : ℚ
  smallest_expense : ℚ
deriving DecidableEq

/-- The `bar_chart_monthly` block. -/
structure MonthlyTrend where
  labels : List String
  data : List ℚ
deriving DecidableEq

/-- The chart payload on the non-empty path. -/
structure ChartPayload where
  pie_chart_category : PieChart
  pie_chart_payment : PieChart
  bar_chart_monthly : Option MonthlyTrend
  top_categories : List TopCatRow
  stats : ChartStats
deriving DecidableEq

/-- The chart response: either the explicit empty-data marker or the payload. -/
inductive ChartData
  | noData
  | charts (p : ChartPayload)
deriving DecidableEq

/-- Python `max(l)` for a non-empty list (the empty case cannot be reached
under the guard in `get_chart_data`). -/
def listMax : List ℚ → ℚ
  | [] => 0
  | a :: l => l.foldl max a

/-- Python `min(l)` for a non-empty list. -/
def listMin : List ℚ → ℚ
  | [] => 0
  | a :: l => l.foldl min a

/-- The monthly trend series (computed over the year-filtered full table,
independent of the month filter, exactly as in the source). -/
def monthlyTrendOf (db : DB) (y : ℕ) : MonthlyTrend :=
  let monthly_data := sqlGroupBy (fun a b => decide (a ≤ b))
    (fun r => r.receipt_date.month)
    (db.receipts.filter fun r => decide (r.receipt_date.year = y))
  { labels := monthly_data.map fun g => month_names_short.getD (g.1 - 1) ""
    data := monthly_data.map fun g => g.2.1 }

/-- The `top_categories` rows before ranking: one row per category group with
its percentage of the grand total, `round((float(total) / total_amount * 100), 1)`. -/
def chartTopRows (db : DB) (m y : Option ℕ) : List TopCatRow :=
  (chartCatGroups db m y).map fun g =>
    TopCatRow.mk g.1 g.2.1 (round1 (g.2.1 / chartTotal db m y * 100))

/-- The chart payload built on the non-empty, non-zero-total path. -/
def chartPayloadOf (db : DB) (m y : Option ℕ) : ChartPayload :=
  let category_labels := (chartCatGroups db m y).map fun g => g.1
  let payment_labels := (chartPayGroups db m y).map fun g => g.1
  { pie_chart_category :=
      { labels := category_labels
        data := (chartCatGroups db m y).map fun g => g.2.1
        colors := categoryColors.take category_labels.length }
    pie_chart_payment :=
      { labels := payment_labels
        data := (chartPayGroups db m y).map fun g => g.2.1
        colors := paymentColors.take payment_labels.length }
    bar_chart_monthly :=
      if truthyNat y then some (monthlyTrendOf db (y.getD 0)) else none
    top_categories := (pySort topLe (chartTopRows db m y)).take 5
    stats :=
      { total_amount := round2 (chartTotal db m y)
        receipt_count := (chartMatched db m y).length
        average_receipt := round2 (chartTotal db m y / ((chartMatched db m y).length : ℚ))
        largest_expense := round2 (listMax ((chartMatched db m y).map Receipt.amount))
        smallest_expense := round2 (listMin ((chartMatched db m y).map Receipt.amount)) } }

/-- `get_chart_data`: empty set short-circuits to the no-data marker; otherwise
the two pies, the top-5 ranking with percentages of the grand total, stats and
the optional monthly trend.  The percentage division
`float(total) / total_amount * 100` is unguarded in the source: when the
non-empty matching set sums to zero, Python raises `ZeroDivisionError` at the
first ranking entry (the group list is non-empty whenever this path runs). -/
def get_chart_data (db : DB) (m y : Option ℕ) : Except String ChartData :=
  if (chartMatched db m y).isEmpty then .ok .noData
  else if chartTotal db m y = 0 then .error "ZeroDivisionError"
  else .ok (.charts (chartPayloadOf db m y))

/-! ## Helper lemmas about the embedded queries -/

theorem roleScope_sublist (u : User) (l : List Receipt) :
    (roleScope u l).Sublist l := by
  unfold roleScope
  split
  · exact List.filter_sublist l
  · exact List.Sublist.refl l

theorem roleScope_id {u : User} (h : u.role ≠ UserRole.IMAM) (l : List Receipt) :
    roleScope u l = l := by
  unfold roleScope
  rw [if_neg h]

theorem mem_roleScope_imam {u : User} {l : List Receipt} {r : Receipt}
    (h : u.role = UserRole.IMAM) (hr : r ∈ roleScope u l) :
    r.uploaded_by = u.id := by
  unfold roleScope at hr
  rw [if_pos h] at hr
  exact of_decide_eq_true (List.mem_filter.mp hr).2

theorem listFilterChain_subset {db : DB} {u : User} {f : ListFilters}
    {pm : Option PaymentMode} {r : Receipt}
    (h : r ∈ listFilterChain db u f pm) : r ∈ roleScope u db.receipts := by
  simp only [listFilterChain] at h
  exact mem_condFilter (mem_condFilter (mem_condFilter h))

theorem searchFilterChain_subset {db : DB} {u : User} {f : SearchFilters}
    {pm : Option PaymentMode} {r : Receipt}
    (h : r ∈ searchFilterChain db u f pm) : r ∈ roleScope u db.receipts := by
  simp only [searchFilterChain] at h
  exact mem_condFilter (mem_condFilter (mem_optFilter (mem_optFilter (mem_optFilter
    (mem_optFilter (mem_optFilter (mem_condFilter h)))))))

theorem tallyMatched_sublist (db : DB) (f : TallyFilters) :
    (tallyMatched db f).Sublist db.receipts := by
  unfold tallyMatched
  exact List.Sublist.trans (optFilter_sublist _ _ _)
    (List.Sublist.trans (condFilter_sublist _ _ _) (condFilter_sublist _ _ _))

theorem chartMatched_sublist (db : DB) (m y : Option ℕ) :
    (chartMatched db m y).Sublist db.receipts := by
  unfold chartMatched
  exact List.Sublist.trans (condFilter_sublist _ _ _) (condFilter_sublist _ _ _)

/-- The id-membership filter of the second-pass aggregation reproduces exactly
the already-filtered subset, provided receipt ids are unique (the primary-key
invariant). -/
theorem filter_of_id_mem {recs sub : List Receipt} (hsub : sub.Sublist recs)
    (hnd : (recs.map Receipt.id).Nodup) :
    (recs.filter fun r => decide (r.id ∈ sub.map Receipt.id)) = sub := by
  induction hsub with
  | slnil => rfl
  | cons a h ih =>
    rename_i sub' l
    rw [List.map_cons, List.nodup_cons] at hnd
    rw [List.filter_cons]
    have hpa : (decide (a.id ∈ sub'.map Receipt.id)) = false := by
      rw [decide_eq_false_iff_not]
      intro hmem
      rw [List.mem_map] at hmem
      obtain ⟨r, hr, hrid⟩ := hmem
      exact hnd.1 (hrid ▸ List.mem_map_of_mem Receipt.id (h.subset hr))
    rw [hpa, if_neg (by simp)]
    exact ih hnd.2
  | cons₂ a h ih =>
    rename_i sub' l
    rw [List.map_cons, List.nodup_cons] at hnd
    rw [List.filter_cons]
    have hpa : (decide (a.id ∈ (a :: sub').map Receipt.id)) = true := by
      simp
    rw [hpa, if_pos (by simp)]
    congr 1
    have hcongr : ∀ r ∈ l, (decide (r.id ∈ (a :: sub').map Receipt.id))
        = (decide (r.id ∈ sub'.map Receipt.id)) := by
      intro r hr
      have hne : r.id ≠ a.id := by
        intro he
        exact hnd.1 (he ▸ List.mem_map_of_mem Receipt.id hr)
      simp [hne]
    rw [List.filter_congr hcongr]
    exact ih hnd.2

/-- Under the primary-key invariants, the tally's second-pass base set is the
matching set itself (the `[0]` fallback matches nothing since ids are
positive). -/
theorem tallyBase_eq (db : DB) (f : TallyFilters)
    (hnd : (db.receipts.map Receipt.id).Nodup)
    (hpos : ∀ r ∈ db.receipts, 0 < r.id) :
    tallyBase db f = tallyMatched db f := by
  unfold tallyBase tallyIds
  by_cases he : (tallyMatched db f).isEmpty
  · rw [if_pos he]
    have hm : tallyMatched db f = [] := List.isEmpty_iff.mp he
    rw [hm]
    refine List.filter_eq_nil_iff.mpr ?_
    intro r hr
    have := hpos r hr
    simp only [List.mem_singleton, decide_eq_true_eq]
    omega
  · rw [if_neg he]
    exact filter_of_id_mem (tallyMatched_sublist db f) hnd

/-- Under the primary-key uniqueness invariant, the chart's second-pass base
set is the matching set itself. -/
theorem chartBase_eq (db : DB) (m y : Option ℕ)
    (hnd : (db.receipts.map Receipt.id).Nodup) :
    chartBase db m y = chartMatched db m y :=
  filter_of_id_mem (chartMatched_sublist db m y) hnd

/-! ## Helper lemmas about rounding and cent-valued amounts -/

theorem round1_le_add (x : ℚ) : round1 x ≤ x + 1/20 := by
  have h := round_le_add_half (x * 10)
  rw [round1]
  rw [div_le_iff₀ (by norm_num : (0:ℚ) < 10)]
  linarith

theorem sub_le_round1 (x : ℚ) : x - 1/20 ≤ round1 x := by
  have h := abs_sub_round (x * 10)
  rw [abs_le] at h
  rw [round1]
  rw [le_div_iff₀ (by norm_num : (0:ℚ) < 10)]
  linarith [h.2]

theorem round1_nonneg {x : ℚ} (h : 0 ≤ x) : 0 ≤ round1 x := by
  rw [round1]
  have h2 : (0 : ℤ) ≤ round (x * 10) := by
    rw [round_eq]
    have : (0 : ℤ) = ⌊(0 : ℚ)⌋ := by simp
    rw [this]
    exact Int.floor_le_floor (by linarith)
  positivity

theorem round2_zero : round2 0 = 0 := by
  rw [round2]
  norm_num

theorem round2_cents {q : ℚ} (h : IsCents q) : round2 q = q := by
  obtain ⟨z, hz⟩ := h
  rw [round2, hz, round_intCast, eq_comm, eq_div_iff (by norm_num : (100:ℚ) ≠ 0)]
  exact hz

theorem isCents_sum : ∀ {l : List ℚ}, (∀ q ∈ l, IsCents q) → IsCents l.sum
  | [], _ => ⟨0, by norm_num⟩
  | a :: l, h => by
    obtain ⟨z1, hz1⟩ := h a (by simp)
    obtain ⟨z2, hz2⟩ := isCents_sum fun q hq => h q (List.mem_cons_of_mem a hq)
    exact ⟨z1 + z2, by rw [List.sum_cons]; push_cast; linarith⟩

/-! ## Concrete stores used by witnesses and counterexamples -/

/-- A single receipt bearing no tags. -/
def rTagless : Receipt :=
  { id := 1, amount := 100, category := "food", payment_mode := .CASH,
    receipt_date := ⟨2024, 1, 5⟩, uploaded_by := 1 }

/-- A store with one receipt and no tags at all. -/
def dbC3 : DB := { receipts := [rTagless], tags := [] }

/-- A finance-secretary viewer. -/
def uFS : User := { id := 10, role := .FINANCE_SECRETARY }

/-! ## C7 — payment-mode parsing -/

/-- C7 (counterexample): the claim says the normalization is case-folded
*with separators flattened*, so `"bank transfer"` would map onto the member
`bank_transfer`; the code only strips and case-folds, and rejects it with the
`InvalidArgument` error instead. -/
theorem C7_counterexample :
    specNormalizedPaymentMode "bank transfer" = PaymentMode.BANK_TRANSFER.value.data
    ∧ parse_payment_mode (some "bank transfer")
        = .error (paymentModeErr "bank transfer")
    ∧ paymentModeErr "bank transfer"
        = "Invalid payment_mode: bank transfer. Expected one of: cash, card, bank_transfer, cheque, other" := by
  refine ⟨by decide, by decide, by decide⟩

/-- C7 (amended): for every input string, the code strips whitespace and
matches the case-folded string against a member's value or the upper-cased
string against a member's Python name — no separator flattening.  A string
matching some member parses to exactly that member; values and names are
pairwise distinct, so the match is unique; any other string — such as
`"bitcoin"` — fails with the `InvalidArgument` error that names all five
accepted values; the input is never silently coerced or dropped. -/
theorem C7_payment_mode_parsing :
    (∀ s : String,
      (∃ m : PaymentMode,
          (lowerOf (pyStrip s) = lowerOf m.value.data ∨ upperOf (pyStrip s) = m.pyName.data)
          ∧ parse_payment_mode (some s) = .ok (some m))
      ∨ ((∀ m : PaymentMode,
            lowerOf (pyStrip s) ≠ lowerOf m.value.data ∧ upperOf (pyStrip s) ≠ m.pyName.data)
          ∧ parse_payment_mode (some s) = .error (paymentModeErr s)))
    ∧ (∀ m m' : PaymentMode, m.value = m'.value → m = m')
    ∧ (∀ m m' : PaymentMode, m.pyName = m'.pyName → m = m')
    ∧ parse_payment_mode (some "bitcoin") = .error (paymentModeErr "bitcoin")
    ∧ paymentModeErr "bitcoin"
        = "Invalid payment_mode: bitcoin. Expected one of: cash, card, bank_transfer, cheque, other"
    ∧ (∀ m : PaymentMode, subB m.value.data (paymentModeErr "bitcoin").data = true) := by
  refine ⟨?_, by decide, by decide, by decide, by decide, by decide⟩
  intro s
  cases hf : findPaymentMode (pyStrip s) with
  | some m =>
    left
    have hp := List.find?_some hf
    rw [Bool.or_eq_true, beq_iff_eq, beq_iff_eq] at hp
    refine ⟨m, hp, ?_⟩
    simp only [parse_payment_mode, hf]
  | none =>
    right
    constructor
    · intro m
      have hmem : m ∈ PaymentMode.members := by cases m <;> decide
      have := List.find?_eq_none.mp hf m hmem
      rw [Bool.or_eq_true, beq_iff_eq, beq_iff_eq] at this
      push_neg at this
      exact this
    · simp only [parse_payment_mode, hf]

/-- C7 (witness): the amended theorem applied at `"bitcoin"` and at the
uniqueness hypothesis `value CASH = value CASH`. -/
theorem C7_payment_mode_parsing_witness :
    parse_payment_mode (some "bitcoin") = .error (paymentModeErr "bitcoin")
    ∧ PaymentMode.CASH = PaymentMode.CASH :=
  ⟨C7_payment_mode_parsing.2.2.2.1,
   C7_payment_mode_parsing.2.1 PaymentMode.CASH PaymentMode.CASH rfl⟩

/-! ## C3 — unknown-tag handling -/

/-- C3 (counterexample): a tag filter naming a tag that does not exist.  The
claim requires an empty result set; the code silently drops the criterion and
returns the one (tagless and otherwise matching) receipt, both in the tally
and in the search. -/
theorem C3_counterexample :
    (get_tally dbC3 { tag_name := some "zakat" }).receipt_count = 1
    ∧ search_receipts dbC3 uFS { tag_name := some "zakat" }
        = .ok [(rTagless, "")] := by
  refine ⟨by decide, by decide⟩

/-- C3 (amended): when a supplied tag criterion resolves to no stored tag, the
tag filter is silently dropped — no error is raised and the result is exactly
what the remaining criteria match (fail-open), not the empty set. -/
theorem C3_unknown_tag_dropped (db : DB) (f : TallyFilters) (u : User)
    (s : SearchFilters)
    (hmiss : tallyTag db f = none)
    (hsmiss : searchTag db s = none) :
    tallyMatched db f = tallyMatched db { f with tag_id := none, tag_name := none }
    ∧ search_receipts db u s = search_receipts db u { s with tag_name := none }
    ∧ (get_tally db f).receipt_count
        = (get_tally db { f with tag_id := none, tag_name := none }).receipt_count
    ∧ (get_tally db f).total_amount
        = (get_tally db { f with tag_id := none, tag_name := none }).total_amount
    ∧ (get_tally db f).by_category
        = (get_tally db { f with tag_id := none, tag_name := none }).by_category
    ∧ (get_tally db f).by_payment_mode
        = (get_tally db { f with tag_id := none, tag_name := none }).by_payment_mode := by
  have htag2 : tallyTag db { f with tag_id := none, tag_name := none } = none := by
    simp [tallyTag, truthyNat, truthyStr]
  have hm : tallyMatched db f
      = tallyMatched db { f with tag_id := none, tag_name := none } := by
    simp only [tallyMatched, hmiss, htag2, optFilter]
  have hstag2 : searchTag db { s with tag_name := none } = none := by
    simp [searchTag, truthyStr]
  have hs : search_receipts db u s = search_receipts db u { s with tag_name := none } := by
    simp only [search_receipts, searchFilterChain, hsmiss, hstag2, optFilter]
  refine ⟨hm, hs, ?_, ?_, ?_, ?_⟩ <;>
    simp only [get_tally, tallyBase, tallyIds, hm]

/-- C3 (witness): the amended theorem at the concrete store `dbC3` with the
unresolved tag name `"zakat"`. -/
theorem C3_unknown_tag_dropped_witness :
    tallyMatched dbC3 { tag_name := some "zakat" }
      = tallyMatched dbC3 { ({ tag_name := some "zakat" } : TallyFilters) with
          tag_id := none, tag_name := none }
    ∧ search_receipts dbC3 uFS { tag_name := some "zakat" }
      = search_receipts dbC3 uFS { ({ tag_name := some "zakat" } : SearchFilters) with
          tag_name := none } :=
  ⟨(C3_unknown_tag_dropped dbC3 { tag_name := some "zakat" } uFS
      { tag_name := some "zakat" } (by decide) (by decide)).1,
   (C3_unknown_tag_dropped dbC3 { tag_name := some "zakat" } uFS
      { tag_name := some "zakat" } (by decide) (by decide)).2.1⟩

/-! ## C2 — role-based visibility scoping -/

/-- C2: for every store, viewer and filter combination, an `imam` viewer's
listing and search results contain only that viewer's own receipts — the role
restriction is the first step of both query chains, so no filter combination
(category, payment mode, uploader, amount, date, tag, pagination) can expose
another uploader's receipt; for `finance_secretary` and `auditor` the scoping
step is the identity. -/
theorem C2_visibility_scoping :
    (∀ (db : DB) (u : User) (f : ListFilters) (l : List (Receipt × String)),
        u.role = UserRole.IMAM → get_receipts db u f = .ok l →
        ∀ x ∈ l, x.1.uploaded_by = u.id)
    ∧ (∀ (db : DB) (u : User) (s : SearchFilters) (l : List (Receipt × String)),
        u.role = UserRole.IMAM → search_receipts db u s = .ok l →
        ∀ x ∈ l, x.1.uploaded_by = u.id)
    ∧ (∀ (u : User) (l : List Receipt), u.role ≠ UserRole.IMAM → roleScope u l = l) := by
  refine ⟨?_, ?_, fun u l h => roleScope_id h l⟩
  · intro db u f l hrole hok x hx
    rw [get_receipts] at hok
    split at hok
    · exact absurd hok (by simp)
    · injection hok with h
      subst h
      rw [withUploaderName, List.mem_map] at hx
      obtain ⟨r, hr, rfl⟩ := hx
      exact mem_roleScope_imam hrole
        (listFilterChain_subset (List.mem_of_mem_drop (List.mem_of_mem_take hr)))
  · intro db u s l hrole hok x hx
    rw [search_receipts] at hok
    split at hok
    · exact absurd hok (by simp)
    · injection hok with h
      subst h
      rw [withUploaderName, List.mem_map] at hx
      obtain ⟨r, hr, rfl⟩ := hx
      exact mem_roleScope_imam hrole (searchFilterChain_subset hr)

/-- An imam viewer. -/
def uImam : User := { id := 1, role := .IMAM }

/-- The imam's own receipt. -/
def rMine : Receipt :=
  { id := 1, amount := 100, category := "food", payment_mode := .CASH,
    receipt_date := ⟨2024, 1, 5⟩, uploaded_by := 1 }

/-- Another uploader's receipt. -/
def rTheirs : Receipt :=
  { id := 2, amount := 60, category := "repairs", payment_mode := .CARD,
    receipt_date := ⟨2024, 2, 6⟩, uploaded_by := 2 }

/-- A store holding receipts of two different uploaders. -/
def dbC2 : DB := { receipts := [rMine, rTheirs] }

/-- C2 (witness): at the two-uploader store, the imam's listing yields only
their own receipt, and the finance-secretary scoping step is the identity. -/
theorem C2_visibility_scoping_witness :
    rMine.uploaded_by = uImam.id ∧ roleScope uFS [rMine, rTheirs] = [rMine, rTheirs] :=
  ⟨C2_visibility_scoping.1 dbC2 uImam {} [(rMine, ""), ] rfl (by decide)
      (rMine, "") (by decide),
   C2_visibility_scoping.2.2 uFS [rMine, rTheirs] (by decide)⟩

/-! ## C10 — tag-name search resolves to the first substring match -/

/-- C10: the search's `tag_name` criterion resolves case-insensitively as a
substring against stored tag names, to at most the single first matching tag
(`.first()`); when a second distinct tag also matches, receipts bearing only
that other tag fail the applied filter and are excluded — so the result
depends on which matching tag the store yields first. -/
theorem C10_search_tag_first_match (db : DB) (u : User) (s : SearchFilters)
    (t1 t2 : Tag) (r : Receipt)
    (hrole : u.role ≠ UserRole.IMAM)
    (hres : searchTag db s = some t1)
    (hcrit : s.store_name = none ∧ s.category = none ∧ s.min_amount = none
      ∧ s.max_amount = none ∧ s.start_date = none ∧ s.end_date = none
      ∧ s.payment_mode = none)
    (ht2 : ilikeSub t2.name (s.tag_name.getD "") = true)
    (ht1r : t1.id ∉ r.tags) (ht2r : t2.id ∈ r.tags) (hr : r ∈ db.receipts) :
    search_receipts db u s
        = .ok (withUploaderName db (db.receipts.filter fun x => decide (t1.id ∈ x.tags)))
    ∧ (∀ l, search_receipts db u s = .ok l → ∀ x ∈ l, x.1 ≠ r)
    ∧ resolveSearchTag db.tags (s.tag_name.getD "")
        = (db.tags.filter fun t => ilikeSub t.name (s.tag_name.getD "")).head? := by
  obtain ⟨h1, h2, h3, h4, h5, h6, h7⟩ := hcrit
  have hchain : ∀ pm, searchFilterChain db u s pm
      = db.receipts.filter fun x => decide (t1.id ∈ x.tags) := by
    intro pm
    simp only [searchFilterChain, h1, h2, h3, h4, h5, h6, h7, hres,
      roleScope_id hrole, optFilter]
    simp [condFilter, truthyStr]
  have hmain : search_receipts db u s
      = .ok (withUploaderName db (db.receipts.filter fun x => decide (t1.id ∈ x.tags))) := by
    simp [search_receipts, h7, truthyStr, hchain]
  refine ⟨hmain, ?_, rfl⟩
  intro l hok x hx
  rw [hmain] at hok
  injection hok with h
  subst h
  rw [withUploaderName, List.mem_map] at hx
  obtain ⟨r2, hr2, rfl⟩ := hx
  intro he
  rw [List.mem_filter] at hr2
  have he2 : r2 = r := he
  rw [he2] at hr2
  exact ht1r (of_decide_eq_true hr2.2)

/-- A tag matching the search pattern, stored first. -/
def tSad : Tag := { id := 1, name := "Sadaqah" }

/-- A second distinct tag whose name also contains the pattern. -/
def tSad2 : Tag := { id := 2, name := "sadaqah-special" }

/-- A receipt bearing only the second matching tag. -/
def rOnly2 : Receipt :=
  { id := 1, amount := 40, category := "charity", payment_mode := .CASH,
    receipt_date := ⟨2024, 3, 1⟩, uploaded_by := 2, tags := [2] }

/-- A store where two distinct tags match the pattern `"sadaq"`. -/
def dbC10 : DB := { receipts := [rOnly2], tags := [tSad, tSad2] }

/-- The search criteria of the C10 witness. -/
def sC10 : SearchFilters := { tag_name := some "sadaq" }

/-- C10 (witness): at the concrete store the pattern resolves to the first tag
`Sadaqah` only, and the receipt carrying only `sadaqah-special` is excluded. -/
theorem C10_search_tag_first_match_witness :
    search_receipts dbC10 uFS sC10
      = .ok (withUploaderName dbC10 (dbC10.receipts.filter fun x => decide (tSad.id ∈ x.tags))) :=
  (C10_search_tag_first_match dbC10 uFS sC10 tSad tSad2 rOnly2 (by decide) (by decide)
    ⟨rfl, rfl, rfl, rfl, rfl, rfl, rfl⟩ (by decide) (by decide) (by decide) (by decide)).1

/-! ## C1 — reconciliation of the tally -/

/-- C1: for every store and filter combination (assuming the primary-key
invariants: receipt ids unique and positive), the tally's per-group totals in
`by_category` sum to the flat grand total over the matching receipts, the
per-group counts sum to `receipt_count`, and the same holds for
`by_payment_mode` — even though the breakdowns are computed by an independent
second aggregation over the id set of the first query.  The reported
`total_amount` is the 2-decimal presentation rounding of that same flat sum. -/
theorem C1_reconciliation (db : DB) (f : TallyFilters)
    (hnd : (db.receipts.map Receipt.id).Nodup)
    (hpos : ∀ r ∈ db.receipts, 0 < r.id) :
    ((get_tally db f).by_category.map GroupRow.total).sum
        = ((tallyMatched db f).map Receipt.amount).sum
    ∧ ((get_tally db f).by_category.map GroupRow.count).sum
        = (get_tally db f).receipt_count
    ∧ ((get_tally db f).by_payment_mode.map GroupRow.total).sum
        = ((tallyMatched db f).map Receipt.amount).sum
    ∧ ((get_tally db f).by_payment_mode.map GroupRow.count).sum
        = (get_tally db f).receipt_count
    ∧ (get_tally db f).total_amount
        = round2 (((tallyMatched db f).map Receipt.amount).sum) := by
  have hbase := tallyBase_eq db f hnd hpos
  have hkey : ∀ key : Receipt → String,
      (((pySort rowLe ((sqlGroupBy strLeB key (tallyBase db f)).map toGroupRow)).map
          GroupRow.total).sum = ((tallyMatched db f).map Receipt.amount).sum)
      ∧ (((pySort rowLe ((sqlGroupBy strLeB key (tallyBase db f)).map toGroupRow)).map
          GroupRow.count).sum = (tallyMatched db f).length) := by
    intro key
    constructor
    · rw [pySort_map_sum, List.map_map]
      exact (sqlGroupBy_sum_totals strLeB key (tallyBase db f)).trans (by rw [hbase])
    · rw [pySort_map_sum, List.map_map]
      exact (sqlGroupBy_sum_counts strLeB key (tallyBase db f)).trans (by rw [hbase])
  exact ⟨(hkey _).1, (hkey _).2, (hkey _).1, (hkey _).2, rfl⟩

/-- C1 (witness): the reconciliation at the two-receipt store. -/
theorem C1_reconciliation_witness :
    ((get_tally dbC2 {}).by_category.map GroupRow.total).sum
        = ((tallyMatched dbC2 {}).map Receipt.amount).sum
    ∧ ((get_tally dbC2 {}).by_category.map GroupRow.count).sum
        = (get_tally dbC2 {}).receipt_count
    ∧ ((get_tally dbC2 {}).by_payment_mode.map GroupRow.total).sum
        = ((tallyMatched dbC2 {}).map Receipt.amount).sum
    ∧ ((get_tally dbC2 {}).by_payment_mode.map GroupRow.count).sum
        = (get_tally dbC2 {}).receipt_count
    ∧ (get_tally dbC2 {}).total_amount
        = round2 (((tallyMatched dbC2 {}).map Receipt.amount).sum) :=
  C1_reconciliation dbC2 {} (by decide) (by decide)

/-! ## C4 — deterministic descending ordering with key tie-break -/

/-- The ordering the breakdown rows satisfy: strictly descending by total,
with ties (necessarily between distinct keys) broken by the ascending natural
(byte-wise) order of the key. -/
def rowOrder (a b : GroupRow) : Prop :=
  b.total < a.total ∨ (a.total = b.total ∧ strLtB a.key b.key = true)

theorem pairwise_rowOrder_pySort {rows : List GroupRow}
    (h : rows.Pairwise fun a b => strLtB a.key b.key = true) :
    (pySort rowLe rows).Pairwise rowOrder := by
  refine @pairwise_pySort _ rowOrder (fun a b => strLtB a.key b.key = true) rowLe
    ?_ ?_ _ h
  · intro x y z hxy hyz
    have h1 : y.total ≤ x.total := of_decide_eq_true hxy
    have h2 : z.total ≤ y.total := by
      rcases hyz with h | ⟨h, _⟩
      · exact le_of_lt h
      · exact le_of_eq h.symm
    exact decide_eq_true (le_trans h2 h1)
  · intro a b hab
    constructor
    · intro hle
      have h1 : b.total ≤ a.total := of_decide_eq_true hle
      rcases lt_or_eq_of_le h1 with h | h
      · exact Or.inl h
      · exact Or.inr ⟨h.symm, hab⟩
    · intro hle
      have h1 : ¬ b.total ≤ a.total := of_decide_eq_false hle
      exact Or.inl (not_le.mp h1)

theorem groups_rows_pairwise (key : Receipt → String) (recs : List Receipt) :
    ((sqlGroupBy strLeB key recs).map toGroupRow).Pairwise
      fun a b => strLtB a.key b.key = true := by
  refine List.Pairwise.map toGroupRow ?_ (sqlGroupBy_pairwise_str key recs)
  intro a b h
  exact h

/-- C4: for every store and filter combination, the tally's category and
payment-mode breakdowns and the summary's top-5 category ranking are ordered
descending by group total, ties broken by the ascending natural order of the
group key — deterministically, including when two groups have equal totals
(the ranking is a stable descending sort over group rows that the `GROUP BY`
emits in ascending key order). -/
theorem C4_ordering (db : DB) (f : TallyFilters) :
    (get_tally db f).by_category.Pairwise rowOrder
    ∧ (get_tally db f).by_payment_mode.Pairwise rowOrder
    ∧ (get_summary db).top_categories.Pairwise rowOrder := by
  refine ⟨?_, ?_, ?_⟩
  · exact pairwise_rowOrder_pySort (groups_rows_pairwise _ _)
  · exact pairwise_rowOrder_pySort (groups_rows_pairwise _ _)
  · exact List.Pairwise.sublist (List.take_sublist 5 _)
      (pairwise_rowOrder_pySort (groups_rows_pairwise _ _))

/-! ## C5 — monthly breakdown shape -/

/-- A receipt with a sub-cent amount in January. -/
def rHalfA : Receipt :=
  { id := 1, amount := 3/200, category := "food", payment_mode := .CASH,
    receipt_date := ⟨2024, 1, 5⟩, uploaded_by := 1 }

/-- A receipt with a sub-cent amount in February. -/
def rHalfB : Receipt :=
  { id := 2, amount := 3/200, category := "food", payment_mode := .CASH,
    receipt_date := ⟨2024, 2, 5⟩, uploaded_by := 1 }

/-- A store with two sub-cent receipts in different months. -/
def dbC5 : DB := { receipts := [rHalfA, rHalfB] }

/-- C5 (counterexample): the months are rounded individually for display while
the grand total is the rounding of the unrounded sum, so for two `0.015`
receipts the listed month totals sum to `0.04` but the reported `total_amount`
is `0.03` — the claim's equality fails. -/
theorem C5_counterexample :
    (get_monthly_breakdown dbC5 2024).total_amount = 3/100
    ∧ ((get_monthly_breakdown dbC5 2024).months.map MonthRow.total).sum = 4/100
    ∧ (3/100 : ℚ) ≠ 4/100 := by
  refine ⟨?_, ?_, by norm_num⟩
  · norm_num +decide [get_monthly_breakdown, dbC5, rHalfA, rHalfB, sqlGroupBy,
      distinctKeys, pySort, insBefore, monthLe, List.filter_cons, round2, round_eq]
  · norm_num +decide [get_monthly_breakdown, dbC5, rHalfA, rHalfB, sqlGroupBy,
      distinctKeys, pySort, insBefore, monthLe, month_names, List.filter_cons,
      round2, round_eq]

/-- C5 (amended): for every mandatory year and store, the months sequence is
strictly ascending by month number with exactly one entry per month that has at
least one matching receipt (zero months omitted, never zero-filled); the
reported `total_amount` is the 2-decimal rounding of the year's unrounded
amount sum, and it equals the sum of the listed (individually rounded) month
totals whenever every stored amount is a whole number of cents — but not in
general, since the listed totals are rounded per month. -/
theorem C5_monthly_shape (db : DB) (year : ℕ) :
    (get_monthly_breakdown db year).months.Pairwise (fun a b => a.month < b.month)
    ∧ (∀ m : ℕ, (∃ row ∈ (get_monthly_breakdown db year).months, row.month = m)
        ↔ ∃ r ∈ db.receipts, r.receipt_date.year = year ∧ r.receipt_date.month = m)
    ∧ (get_monthly_breakdown db year).total_amount
        = round2 (((db.receipts.filter fun r => decide (r.receipt_date.year = year)).map
            Receipt.amount).sum)
    ∧ ((∀ r ∈ db.receipts, IsCents r.amount) →
        (get_monthly_breakdown db year).total_amount
          = ((get_monthly_breakdown db year).months.map MonthRow.total).sum) := by
  refine ⟨?_, ?_, ?_, ?_⟩
  · show (pySort monthLe _).Pairwise _
    have hrows : ((sqlGroupBy (fun a b : ℕ => decide (a ≤ b))
        (fun r => r.receipt_date.month)
        (db.receipts.filter fun r => decide (r.receipt_date.year = year))).map fun g =>
          MonthRow.mk g.1 (month_names.getD (g.1 - 1) "") (round2 g.2.1) g.2.2).Pairwise
        (fun a b => a.month < b.month) := by
      refine List.Pairwise.map _ ?_ (sqlGroupBy_pairwise_nat _ _)
      intro a b h
      exact h
    refine @pairwise_pySort _ (fun a b : MonthRow => a.month < b.month)
      (fun a b : MonthRow => a.month < b.month) monthLe ?_ ?_ _ hrows
    · intro x y z hxy hyz
      have h1 : x.month ≤ y.month := of_decide_eq_true hxy
      exact decide_eq_true (by omega)
    · intro a b hab
      refine ⟨fun _ => hab, fun hle => ?_⟩
      have := of_decide_eq_false hle
      omega
  · intro m
    constructor
    · rintro ⟨row, hrow, rfl⟩
      have hrow2 := (pySort_perm monthLe _).subset hrow
      rw [List.mem_map] at hrow2
      obtain ⟨g, hg, rfl⟩ := hrow2
      have := (sqlGroupBy_keys_iff (fun a b => decide (a ≤ b))
        (fun r => r.receipt_date.month) _ g.1).mp ⟨g, hg, rfl⟩
      obtain ⟨r, hr, hm⟩ := this
      rw [List.mem_filter] at hr
      exact ⟨r, hr.1, of_decide_eq_true hr.2, hm⟩
    · rintro ⟨r, hr, hy, hm⟩
      have hrf : r ∈ db.receipts.filter fun r => decide (r.receipt_date.year = year) :=
        List.mem_filter.mpr ⟨hr, decide_eq_true hy⟩
      obtain ⟨g, hg, hgm⟩ := (sqlGroupBy_keys_iff (fun a b => decide (a ≤ b))
        (fun r => r.receipt_date.month) _ m).mpr ⟨r, hrf, hm⟩
      refine ⟨MonthRow.mk g.1 (month_names.getD (g.1 - 1) "") (round2 g.2.1) g.2.2, ?_, hgm⟩
      exact (pySort_perm monthLe _).mem_iff.mpr (List.mem_map_of_mem _ hg)
  · show round2 _ = _
    exact congrArg round2 (sqlGroupBy_sum_totals _ _ _)
  · intro hcents
    have hgc : ∀ g ∈ sqlGroupBy (fun a b : ℕ => decide (a ≤ b))
        (fun r => r.receipt_date.month)
        (db.receipts.filter fun r => decide (r.receipt_date.year = year)), IsCents g.2.1 := by
      intro g hg
      have hrow := (sqlGroupBy_row _ _ _ hg).1
      rw [hrow]
      refine isCents_sum ?_
      intro q hq
      rw [List.mem_map] at hq
      obtain ⟨r, hr, rfl⟩ := hq
      exact hcents r (List.mem_of_mem_filter (List.mem_of_mem_filter hr))
    show round2 _ = ((pySort monthLe _).map MonthRow.total).sum
    rw [pySort_map_sum, List.map_map]
    have hmap : ∀ gs : List (ℕ × ℚ × ℕ), (∀ g ∈ gs, IsCents g.2.1) →
        (gs.map (MonthRow.total ∘ fun g : ℕ × ℚ × ℕ =>
          MonthRow.mk g.1 (month_names.getD (g.1 - 1) "") (round2 g.2.1) g.2.2)).sum
          = (gs.map fun g => g.2.1).sum := by
      intro gs hgs
      congr 1
      refine List.map_congr_left ?_
      intro g hg
      exact round2_cents (hgs g hg)
    rw [hmap _ hgc]
    exact round2_cents (isCents_sum fun q hq => by
      rw [List.mem_map] at hq
      obtain ⟨g, hg, rfl⟩ := hq
      exact hgc g hg)

/-- C5 (witness): at the two-receipt store (whole-cent amounts, months 1 and
2 of 2024) the reported total equals the sum of the listed month totals. -/
theorem C5_monthly_shape_witness :
    (get_monthly_breakdown dbC2 2024).total_amount
      = ((get_monthly_breakdown dbC2 2024).months.map MonthRow.total).sum :=
  (C5_monthly_shape dbC2 2024).2.2.2 (fun r hr => by
      rcases List.mem_cons.mp hr with h | h
      · exact ⟨10000, by rw [h]; norm_num [rMine]⟩
      · rcases List.mem_cons.mp h with h2 | h2
        · exact ⟨6000, by rw [h2]; norm_num [rTheirs]⟩
        · exact absurd h2 (List.not_mem_nil r))

/-! ## C6 — degenerate inputs and division by zero -/

/-- Inversion of a successful chart computation: the matching set was
non-empty, the grand total non-zero, and the payload is `chartPayloadOf`. -/
theorem get_chart_data_ok_charts {db : DB} {m y : Option ℕ} {p : ChartPayload}
    (hok : get_chart_data db m y = .ok (.charts p)) :
    chartMatched db m y ≠ [] ∧ chartTotal db m y ≠ 0 ∧ p = chartPayloadOf db m y := by
  rw [get_chart_data] at hok
  split at hok
  · rename_i he
    injection hok with h
    exact absurd h (by simp)
  · rename_i he
    split at hok
    · exact absurd hok (by simp)
    · rename_i htot
      injection hok with h
      injection h with h2
      refine ⟨fun hnil => he ?_, htot, h2.symm⟩
      rw [hnil]
      rfl

/-- The empty-matched-set base of the tally is empty (ids are positive, so the
`[0]` fallback id list matches nothing). -/
theorem tallyBase_of_empty (db : DB) (f : TallyFilters)
    (hpos : ∀ r ∈ db.receipts, 0 < r.id)
    (hempty : tallyMatched db f = []) : tallyBase db f = [] := by
  unfold tallyBase tallyIds
  rw [if_pos (List.isEmpty_iff.mpr hempty)]
  refine List.filter_eq_nil_iff.mpr ?_
  intro r hr
  have := hpos r hr
  simp only [List.mem_singleton, decide_eq_true_eq]
  omega

/-- A store whose single receipt has amount zero. -/
def rZero : Receipt :=
  { id := 1, amount := 0, category := "misc", payment_mode := .CASH,
    receipt_date := ⟨2024, 1, 2⟩, uploaded_by := 1 }

/-- The store that makes the chart percentage computation divide by zero. -/
def dbC6 : DB := { receipts := [rZero] }

/-- C6 (counterexample): the dashboard chart's percentage computation divides
by the grand total unguarded; with one receipt of amount `0` (legal under the
spec's `amount >= 0` invariant) the non-empty filtered set sums to zero and
the report computation raises `ZeroDivisionError` — so "no report computation
ever raises a division-by-zero error" is false of the code. -/
theorem C6_counterexample :
    get_chart_data dbC6 none none = .error "ZeroDivisionError" := by
  norm_num +decide [get_chart_data, chartMatched, chartTotal, condFilter, truthyNat,
    dbC6, rZero, List.isEmpty]

/-- C6 (amended): the tally returns grand total 0, count 0 and empty breakdown
lists on an empty matching set without raising; the summary average is 0
whenever the receipt count is 0; the chart never raises when every amount is
positive; but the chart raises `ZeroDivisionError` exactly when its non-empty
matching set sums to zero — the percentage computation is the one unguarded
division. -/
theorem C6_degenerate_safety (db : DB) (f : TallyFilters) (m y : Option ℕ)
    (hpos : ∀ r ∈ db.receipts, 0 < r.id) :
    (tallyMatched db f = [] →
      (get_tally db f).total_amount = 0
      ∧ (get_tally db f).receipt_count = 0
      ∧ (get_tally db f).by_category = []
      ∧ (get_tally db f).by_payment_mode = [])
    ∧ ((get_summary db).total_receipts = 0 → (get_summary db).average_receipt = 0)
    ∧ ((∀ r ∈ db.receipts, 0 < r.amount) → ∃ c, get_chart_data db m y = .ok c)
    ∧ (get_chart_data db m y = .error "ZeroDivisionError"
        ↔ chartMatched db m y ≠ [] ∧ chartTotal db m y = 0) := by
  refine ⟨?_, ?_, ?_, ?_⟩
  · intro hempty
    have hbase := tallyBase_of_empty db f hpos hempty
    refine ⟨?_, ?_, ?_, ?_⟩
    · show round2 _ = 0
      rw [hempty]
      simp [round2_zero]
    · show (tallyMatched db f).length = 0
      rw [hempty]
      rfl
    · show pySort rowLe ((sqlGroupBy strLeB _ (tallyBase db f)).map toGroupRow) = []
      rw [hbase]
      rfl
    · show pySort rowLe ((sqlGroupBy strLeB _ (tallyBase db f)).map toGroupRow) = []
      rw [hbase]
      rfl
  · intro h0
    have hl : db.receipts = [] := List.length_eq_zero.mp h0
    show round2 (if db.receipts.length > 0 then _ else 0) = 0
    rw [hl]
    simp [round2_zero]
  · intro hamt
    by_cases hemp : (chartMatched db m y).isEmpty = true
    · exact ⟨.noData, by rw [get_chart_data, if_pos hemp]⟩
    · have hne : (chartMatched db m y).map Receipt.amount ≠ [] := by
        intro hmap
        exact hemp (List.isEmpty_iff.mpr (List.map_eq_nil_iff.mp hmap))
      have htot : 0 < chartTotal db m y := by
        refine List.sum_pos _ ?_ hne
        intro q hq
        rw [List.mem_map] at hq
        obtain ⟨r, hr, rfl⟩ := hq
        exact hamt r ((chartMatched_sublist db m y).subset hr)
      exact ⟨.charts (chartPayloadOf db m y),
        by rw [get_chart_data, if_neg hemp, if_neg (ne_of_gt htot)]⟩
  · rw [get_chart_data]
    by_cases hemp : (chartMatched db m y).isEmpty = true
    · rw [if_pos hemp]
      constructor
      · intro h
        exact absurd h (by simp)
      · rintro ⟨hne, _⟩
        exact absurd (List.isEmpty_iff.mp hemp) hne
    · rw [if_neg hemp]
      by_cases htot : chartTotal db m y = 0
      · rw [if_pos htot]
        constructor
        · intro _
          exact ⟨fun hnil => hemp (by rw [hnil]; rfl), htot⟩
        · intro _
          rfl
      · rw [if_neg htot]
        constructor
        · intro h
          exact absurd h (by simp)
        · rintro ⟨_, h0⟩
          exact absurd h0 htot

/-- The empty store. -/
def dbEmpty : DB := { receipts := [] }

/-- C6 (witness): the amended theorem at the empty store — empty tally
aggregates and a zero average, all hypotheses discharged. -/
theorem C6_degenerate_safety_witness :
    (get_tally dbEmpty {}).total_amount = 0
    ∧ (get_tally dbEmpty {}).receipt_count = 0
    ∧ (get_tally dbEmpty {}).by_category = []
    ∧ (get_tally dbEmpty {}).by_payment_mode = []
    ∧ (get_summary dbEmpty).average_receipt = 0 :=
  ⟨((C6_degenerate_safety dbEmpty {} none none (by decide)).1 rfl).1,
   ((C6_degenerate_safety dbEmpty {} none none (by decide)).1 rfl).2.1,
   ((C6_degenerate_safety dbEmpty {} none none (by decide)).1 rfl).2.2.1,
   ((C6_degenerate_safety dbEmpty {} none none (by decide)).1 rfl).2.2.2,
   (C6_degenerate_safety dbEmpty {} none none (by decide)).2.1 rfl⟩

/-! ## C9 — color palette pairing -/

/-- Projection of the category pie from a chart response (empty on the no-data
and error paths). -/
def pieCatOf (e : Except String ChartData) : PieChart :=
  match e with
  | .ok (.charts p) => p.pie_chart_category
  | _ => { labels := [], data := [], colors := [] }

/-- A store with eight distinct categories — one more than the palette. -/
def dbC9 : DB :=
  { receipts :=
      [ { id := 1, amount := 1, category := "c1", payment_mode := .CASH,
          receipt_date := ⟨2024, 1, 1⟩, uploaded_by := 1 },
        { id := 2, amount := 1, category := "c2", payment_mode := .CASH,
          receipt_date := ⟨2024, 1, 2⟩, uploaded_by := 1 },
        { id := 3, amount := 1, category := "c3", payment_mode := .CASH,
          receipt_date := ⟨2024, 1, 3⟩, uploaded_by := 1 },
        { id := 4, amount := 1, category := "c4", payment_mode := .CASH,
          receipt_date := ⟨2024, 1, 4⟩, uploaded_by := 1 },
        { id := 5, amount := 1, category := "c5", payment_mode := .CASH,
          receipt_date := ⟨2024, 1, 5⟩, uploaded_by := 1 },
        { id := 6, amount := 1, category := "c6", payment_mode := .CASH,
          receipt_date := ⟨2024, 1, 6⟩, uploaded_by := 1 },
        { id := 7, amount := 1, category := "c7", payment_mode := .CASH,
          receipt_date := ⟨2024, 1, 7⟩, uploaded_by := 1 },
        { id := 8, amount := 1, category := "c8", payment_mode := .CASH,
          receipt_date := ⟨2024, 1, 8⟩, uploaded_by := 1 } ] }

/-- C9 (counterexample): with eight categories the code's
`category_colors[:len(category_labels)]` yields only the seven palette entries
— the colors list does *not* have exactly one entry per label, and nothing
cycles. -/
theorem C9_counterexample :
    (pieCatOf (get_chart_data dbC9 none none)).labels.length = 8
    ∧ (pieCatOf (get_chart_data dbC9 none none)).colors.length = 7
    ∧ (8 : ℕ) ≠ 7 := by
  refine ⟨?_, ?_, by decide⟩ <;>
    norm_num +decide [pieCatOf, get_chart_data, chartPayloadOf, chartMatched, chartTotal,
      chartBase, chartCatGroups, chartPayGroups, chartTopRows, sqlGroupBy, distinctKeys,
      pySort, insBefore, condFilter, truthyNat, categoryColors, paymentColors, dbC9,
      strLeB, strLtB, List.filter_cons, round1, round2, round_eq, monthlyTrendOf, topLe,
      listMax, listMin, List.isEmpty]

/-- C9 (amended): each pie pairs its labels with the *truncated* palette
`palette[:len(labels)]` — one color per label exactly when the number of
labels does not exceed the palette length (7 for categories, 5 for payment
modes); beyond that the colors list is shorter than the labels list, with no
cyclic repetition. -/
theorem C9_palette_truncation (db : DB) (m y : Option ℕ) (p : ChartPayload)
    (hok : get_chart_data db m y = .ok (.charts p)) :
    p.pie_chart_category.colors
        = categoryColors.take p.pie_chart_category.labels.length
    ∧ p.pie_chart_category.colors.length
        = min p.pie_chart_category.labels.length categoryColors.length
    ∧ (p.pie_chart_category.labels.length ≤ categoryColors.length →
        p.pie_chart_category.colors.length = p.pie_chart_category.labels.length)
    ∧ p.pie_chart_payment.colors = paymentColors.take p.pie_chart_payment.labels.length
    ∧ p.pie_chart_payment.colors.length
        = min p.pie_chart_payment.labels.length paymentColors.length
    ∧ (p.pie_chart_payment.labels.length ≤ paymentColors.length →
        p.pie_chart_payment.colors.length = p.pie_chart_payment.labels.length) := by
  obtain ⟨-, -, rfl⟩ := get_chart_data_ok_charts hok
  have hcat : (chartPayloadOf db m y).pie_chart_category.labels
      = (chartCatGroups db m y).map (fun g => g.1) := rfl
  have hpay : (chartPayloadOf db m y).pie_chart_payment.labels
      = (chartPayGroups db m y).map (fun g => g.1) := rfl
  refine ⟨rfl, ?_, ?_, rfl, ?_, ?_⟩
  · show (categoryColors.take _).length = _
    rw [List.length_take, hcat]
  · intro h
    rw [hcat] at h
    show (categoryColors.take _).length = _
    rw [List.length_take, hcat]
    omega
  · show (paymentColors.take _).length = _
    rw [List.length_take, hpay]
  · intro h
    rw [hpay] at h
    show (paymentColors.take _).length = _
    rw [List.length_take, hpay]
    omega

/-- C9 (witness): the amended theorem at the two-category store. -/
theorem C9_palette_truncation_witness :
    (chartPayloadOf dbC2 none none).pie_chart_category.colors
      = categoryColors.take (chartPayloadOf dbC2 none none).pie_chart_category.labels.length
    ∧ (chartPayloadOf dbC2 none none).pie_chart_payment.colors
      = paymentColors.take (chartPayloadOf dbC2 none none).pie_chart_payment.labels.length := by
  have hne : chartTotal dbC2 none none ≠ 0 := by
    norm_num [chartTotal, chartMatched, condFilter, truthyNat, dbC2, rMine, rTheirs]
  have hok : get_chart_data dbC2 none none
      = .ok (.charts (chartPayloadOf dbC2 none none)) := by
    rw [get_chart_data, if_neg (by decide), if_neg hne]
  exact ⟨(C9_palette_truncation dbC2 none none _ hok).1,
    (C9_palette_truncation dbC2 none none _ hok).2.2.2.1⟩

/-! ## C8 — chart percentage consistency -/

theorem sum_map_round1_le (qs : List ℚ) :
    (qs.map round1).sum ≤ qs.sum + qs.length * (1/20) := by
  induction qs with
  | nil => simp
  | cons a l ih =>
    simp only [List.map_cons, List.sum_cons, List.length_cons]
    have h := round1_le_add a
    push_cast
    linarith

theorem sum_map_round1_ge (qs : List ℚ) :
    qs.sum - qs.length * (1/20) ≤ (qs.map round1).sum := by
  induction qs with
  | nil => simp
  | cons a l ih =>
    simp only [List.map_cons, List.sum_cons, List.length_cons]
    have h := sub_le_round1 a
    push_cast
    linarith

theorem sum_map_div_mul (qs : List ℚ) (T c : ℚ) :
    (qs.map fun x => x / T * c).sum = qs.sum / T * c := by
  induction qs with
  | nil => simp
  | cons a l ih =>
    simp only [List.map_cons, List.sum_cons, ih]
    ring

/-- C8 (amended): in every successful chart payload (assuming the spec's
`amount >= 0` data invariant and unique ids), each top category's percentage
equals its total divided by the grand total times 100 rounded to one decimal
place; the listed percentages sum to at most `100 + 1/4` (at most five
entries, each rounded up by at most `1/20`); and when the top-5 ranking covers
all categories the sum lies within `1/4` of 100 — but not exactly 100 in
general, since each percentage is rounded individually. -/
theorem C8_chart_percentages (db : DB) (m y : Option ℕ) (p : ChartPayload)
    (hok : get_chart_data db m y = .ok (.charts p))
    (hnn : ∀ r ∈ db.receipts, 0 ≤ r.amount)
    (hnd : (db.receipts.map Receipt.id).Nodup) :
    (∀ e ∈ p.top_categories, e.percentage = round1 (e.amount / chartTotal db m y * 100))
    ∧ (p.top_categories.map TopCatRow.percentage).sum ≤ 100 + 1/4
    ∧ ((chartCatGroups db m y).length ≤ 5 →
        100 - 1/4 ≤ (p.top_categories.map TopCatRow.percentage).sum) := by
  obtain ⟨hne, htot, rfl⟩ := get_chart_data_ok_charts hok
  have htops : (chartPayloadOf db m y).top_categories
      = (pySort topLe (chartTopRows db m y)).take 5 := rfl
  have hrow : ∀ e ∈ chartTopRows db m y,
      e.percentage = round1 (e.amount / chartTotal db m y * 100) := by
    intro e he
    rw [chartTopRows, List.mem_map] at he
    obtain ⟨g, hg, rfl⟩ := he
    rfl
  have hrow_nonneg : ∀ e ∈ chartTopRows db m y, 0 ≤ e.amount := by
    intro e he
    rw [chartTopRows, List.mem_map] at he
    obtain ⟨g, hg, rfl⟩ := he
    show 0 ≤ g.2.1
    rw [(sqlGroupBy_row _ _ _ hg).1]
    refine List.sum_nonneg ?_
    intro q hq
    rw [List.mem_map] at hq
    obtain ⟨r, hr, rfl⟩ := hq
    exact hnn r (List.mem_of_mem_filter (List.mem_of_mem_filter hr))
  have hmem : ∀ e ∈ (chartPayloadOf db m y).top_categories, e ∈ chartTopRows db m y := by
    intro e he
    rw [htops] at he
    exact (pySort_perm topLe _).subset (List.mem_of_mem_take he)
  have hsumT : ((chartCatGroups db m y).map fun g => g.2.1).sum = chartTotal db m y := by
    rw [chartCatGroups, sqlGroupBy_sum_totals, chartBase_eq db m y hnd]
    rfl
  have hall : ((chartTopRows db m y).map
      fun e => e.amount / chartTotal db m y * 100).sum = 100 := by
    rw [chartTopRows, List.map_map]
    have heq : ((chartCatGroups db m y).map
        ((fun e : TopCatRow => e.amount / chartTotal db m y * 100) ∘ fun g =>
          TopCatRow.mk g.1 g.2.1 (round1 (g.2.1 / chartTotal db m y * 100))))
        = (chartCatGroups db m y).map
          ((fun x : ℚ => x / chartTotal db m y * 100) ∘ fun g : String × ℚ × ℕ => g.2.1) := rfl
    rw [heq, ← List.map_map, sum_map_div_mul, hsumT]
    field_simp
  have hl : ((chartPayloadOf db m y).top_categories.map TopCatRow.percentage)
      = (((chartPayloadOf db m y).top_categories.map
          fun e => e.amount / chartTotal db m y * 100).map round1) := by
    rw [List.map_map]
    refine List.map_congr_left ?_
    intro e he
    exact hrow e (hmem e he)
  set l := (chartPayloadOf db m y).top_categories with hldef
  set qs := l.map (fun e => e.amount / chartTotal db m y * 100) with hqs
  have hlen5 : qs.length ≤ 5 := by
    rw [hqs, List.length_map, htops]
    exact List.length_take_le 5 _
  have hqs_take : qs = ((pySort topLe (chartTopRows db m y)).map
      fun e => e.amount / chartTotal db m y * 100).take 5 := by
    rw [hqs, htops, List.map_take]
  have hfull_nonneg : ∀ q ∈ (pySort topLe (chartTopRows db m y)).map
      (fun e => e.amount / chartTotal db m y * 100), 0 ≤ q := by
    intro q hq
    rw [List.mem_map] at hq
    obtain ⟨e, he, rfl⟩ := hq
    have hT_nonneg : 0 ≤ chartTotal db m y := by
      refine List.sum_nonneg ?_
      intro q2 hq2
      rw [List.mem_map] at hq2
      obtain ⟨r, hr, rfl⟩ := hq2
      exact hnn r ((chartMatched_sublist db m y).subset hr)
    have ha := hrow_nonneg e ((pySort_perm topLe _).subset he)
    positivity
  have hfull_sum : ((pySort topLe (chartTopRows db m y)).map
      fun e => e.amount / chartTotal db m y * 100).sum = 100 := by
    rw [pySort_map_sum]
    exact hall
  have hqs_le : qs.sum ≤ 100 := by
    rw [hqs_take]
    exact le_of_le_of_eq
      (List.Sublist.sum_le_sum (List.take_sublist _ _) hfull_nonneg) hfull_sum
  have h5q : (qs.length : ℚ) * (1/20) ≤ 5 * (1/20) := by
    have h5 : (qs.length : ℚ) ≤ 5 := by exact_mod_cast hlen5
    exact mul_le_mul_of_nonneg_right h5 (by norm_num)
  refine ⟨fun e he => hrow e (hmem e he), ?_, ?_⟩
  · rw [hl]
    have hup := sum_map_round1_le qs
    calc (qs.map round1).sum ≤ qs.sum + qs.length * (1/20) := hup
    _ ≤ 100 + 5 * (1/20) := by linarith
    _ = 100 + 1/4 := by norm_num
  · intro h5g
    have hlenrows : (chartTopRows db m y).length ≤ 5 := by
      rw [chartTopRows, List.length_map]
      exact h5g
    have hlfull : l = pySort topLe (chartTopRows db m y) := by
      rw [htops]
      exact List.take_of_length_le (by rw [pySort_length]; exact hlenrows)
    have hqs_sum : qs.sum = 100 := by
      rw [hqs, hlfull]
      exact hfull_sum
    rw [hl]
    have hlow := sum_map_round1_ge qs
    calc (100 : ℚ) - 1/4 = 100 - 5 * (1/20) := by norm_num
    _ ≤ qs.sum - qs.length * (1/20) := by
        rw [hqs_sum]
        linarith
    _ ≤ (qs.map round1).sum := hlow

/-- Projection of the listed top-category percentages from a chart response. -/
def topPercentagesOf (e : Except String ChartData) : List ℚ :=
  match e with
  | .ok (.charts p) => p.top_categories.map TopCatRow.percentage
  | _ => []

/-- A store with three equal-amount receipts in three distinct categories. -/
def dbC8 : DB :=
  { receipts :=
      [ { id := 1, amount := 100, category := "a", payment_mode := .CASH,
          receipt_date := ⟨2024, 1, 1⟩, uploaded_by := 1 },
        { id := 2, amount := 100, category := "b", payment_mode := .CASH,
          receipt_date := ⟨2024, 1, 2⟩, uploaded_by := 1 },
        { id := 3, amount := 100, category := "c", payment_mode := .CASH,
          receipt_date := ⟨2024, 1, 3⟩, uploaded_by := 1 } ] }

/-- C8 (counterexample): with three equal categories the ranking covers all
categories, each percentage rounds to `33.3`, and the percentages sum to
`99.9` — not exactly 100 as the claim requires. -/
theorem C8_counterexample :
    topPercentagesOf (get_chart_data dbC8 none none) = [333/10, 333/10, 333/10]
    ∧ (topPercentagesOf (get_chart_data dbC8 none none)).length
        = (chartCatGroups dbC8 none none).length
    ∧ ((333/10 : ℚ) + (333/10 + (333/10 + 0))) ≠ 100 := by
  have h1 : topPercentagesOf (get_chart_data dbC8 none none)
      = [333/10, 333/10, 333/10] := by
    norm_num +decide [topPercentagesOf, get_chart_data, chartPayloadOf, chartMatched,
      chartTotal, chartBase, chartCatGroups, chartPayGroups, chartTopRows, sqlGroupBy,
      distinctKeys, pySort, insBefore, condFilter, truthyNat, dbC8, strLeB, strLtB,
      topLe, List.filter_cons, round1, round2, round_eq, List.isEmpty]
  have h2 : (chartCatGroups dbC8 none none).length = 3 := by
    norm_num +decide [chartCatGroups, chartBase, chartMatched, chartTotal, sqlGroupBy,
      distinctKeys, pySort, insBefore, condFilter, truthyNat, dbC8, strLeB, strLtB,
      List.filter_cons]
  refine ⟨h1, ?_, by norm_num⟩
  rw [h1, h2]
  rfl

/-- C8 (witness): the amended theorem at the two-category store. -/
theorem C8_chart_percentages_witness :
    ((chartPayloadOf dbC2 none none).top_categories.map TopCatRow.percentage).sum
      ≤ 100 + 1/4 := by
  have hne : chartTotal dbC2 none none ≠ 0 := by
    norm_num [chartTotal, chartMatched, condFilter, truthyNat, dbC2, rMine, rTheirs]
  have hok : get_chart_data dbC2 none none
      = .ok (.charts (chartPayloadOf dbC2 none none)) := by
    rw [get_chart_data, if_neg (by decide), if_neg hne]
  exact (C8_chart_percentages dbC2 none none _ hok
    (by intro r hr; rcases List.mem_cons.mp hr with h | h
        · rw [h]; norm_num [rMine]
        · rcases List.mem_cons.mp h with h2 | h2
          · rw [h2]; norm_num [rTheirs]
          · exact absurd h2 (List.not_mem_nil r))
    (by decide)).2.1
